import Mathlib

/-!
Verification of the streaming decoder of `slop-streamer`
(crates/slop-streamer/src/openai_compat/endpoint/responses/stream/).

Shallow embedding conventions:
- A reference-counted byte allocation (the backing storage behind
  `bytes::Bytes` / `bytes_utils::Str`) is modelled as `Alloc`: an identity
  (`id`, standing for the address of the allocation) together with its
  character content.  Rust works on UTF-8 bytes; the model works on the
  character sequence, which preserves the subslice/sharing structure the
  claims are about.
- `Str` models `bytes_utils::Str`: a view (start, len) into an `Alloc`,
  sharing it by reference count.  A borrowed `&str` has the same runtime
  shape (a pointer range into some allocation) and is modelled by the same
  structure.
- `Cow<'_, str>` is `CowStr`: either a borrowed view or an owned `String`
  (an allocation owned in full).
- Machine integers (`u32`, `u64`) are `Nat`; the decoder enforces the
  range.  `f64` (only the optional `cost` field) is modelled as `Rat`.
- `Bytes::slice_ref` panics when the subslice is not inside the parent
  view; panics are modelled by `Option`: `none` = panic.
- The JSON layer (`serde_json`) is embedded as a decoder over a `Json`
  value tree, following the behaviour of the serde derives on the source
  types (internally tagged enums on `type`, optional fields, `#[serde
  (default)]` vectors, integer range checks).
-/

namespace SlopStreamer

/-- One reference-counted allocation: an identity (the address) and its
character content. -/
structure Alloc where
  id : Nat
  content : List Char
deriving DecidableEq

/-- Model of `bytes_utils::Str`: a view into an allocation (`bytes::Bytes`
range plus the UTF-8 guarantee).  Also models a borrowed `&str`, which at
runtime is a pointer range into some allocation. -/
structure Str where
  alloc : Alloc
  start : Nat
  len : Nat
deriving DecidableEq

/-- The character content a `Str` view exposes. -/
def Str.content (s : Str) : List Char :=
  (s.alloc.content.drop s.start).take s.len

/-- `Bytes::slice_ref` (as used through `Str::slice_ref`): checks that the
subslice's pointer range lies inside the parent view and returns a view of
the same allocation; out of range it panics (`none`). -/
def Str.slice_ref (buf : Str) (sub : Str) : Option Str :=
  if sub.alloc = buf.alloc ∧ buf.start ≤ sub.start ∧
      sub.start + sub.len ≤ buf.start + buf.len then
    some ⟨sub.alloc, sub.start, sub.len⟩
  else
    none

/-- Model of `Cow<'_, str>`: borrowed view into a buffer, or an owned
`String` (its own allocation, viewed in full). -/
inductive CowStr where
  | borrowed (r : Str)
  | owned (s : Alloc)
deriving DecidableEq

/-- Character content of a `Cow<'_, str>`. -/
def CowStr.content : CowStr → List Char
  | .borrowed r => r.content
  | .owned s => s.content

/-- `impl ConvertToOwned for Cow<'_, str>` (stream_item/mod.rs):
a borrowed leaf goes through `buf.slice_ref(subslice)` (sharing the
buffer's allocation, panicking if the leaf is not a subslice of `buf`);
an owned leaf is wrapped via `Bytes::from(vec)` +
`Str::from_inner_unchecked`, which takes over the `String`'s allocation
without copying. -/
def CowStr.convert_to_owned : CowStr → Str → Option Str
  | .borrowed r, buf => buf.slice_ref r
  | .owned s, _ => some ⟨s, 0, s.content.length⟩

/-- The condition under which a `Cow` leaf converts without panicking:
a borrowed leaf must be a subslice of the backing buffer's view; an owned
leaf always converts. -/
def CowStr.okFor (buf : Str) : CowStr → Prop
  | .borrowed r => r.alloc = buf.alloc ∧ buf.start ≤ r.start ∧
      r.start + r.len ≤ buf.start + buf.len
  | .owned _ => True

instance (buf : Str) (c : CowStr) : Decidable (CowStr.okFor buf c) := by
  unfold CowStr.okFor
  cases c <;> infer_instance

/-! ## The event data model (stream_item/mod.rs)

Every Rust type is reproduced with its exact name and field order.  The
generic string-representation parameter `T` (default `Str` in Rust) stays
a parameter; `ResponseCreatedData`, `ResponseInProgressData` and
`ResponseCompletedData` are not generic in the source and hold `Str`
leaves directly (through `ResponseMetadata`'s default parameter). -/

inductive ResponseStatus where
  | InProgress
  | Completed
deriving DecidableEq

inductive ItemStatus where
  | InProgress
  | Completed
deriving DecidableEq

/-- `UsageInfo`: token counts are `u64`, `cost` is `Option<f64>`. -/
structure UsageInfo where
  input_tokens : Nat
  output_tokens : Nat
  total_tokens : Nat
  cost : Option Rat
deriving DecidableEq

structure ResponseMetadata (T : Type) where
  id : T
  status : ResponseStatus
  usage : Option UsageInfo
deriving DecidableEq

/-- `ResponseCreatedData` is not generic: its `response` field uses
`ResponseMetadata`'s default parameter `Str`. -/
structure ResponseCreatedData where
  response : ResponseMetadata Str
  sequence_number : Nat
deriving DecidableEq

structure ResponseInProgressData where
  sequence_number : Nat
deriving DecidableEq

structure ResponseCompletedData where
  response : ResponseMetadata Str
  sequence_number : Nat
deriving DecidableEq

structure UrlCitation (T : Type) where
  url : T
  title : T
  start_index : Nat
  end_index : Nat
deriving DecidableEq

inductive Annotation (T : Type) where
  | UrlCitation (c : UrlCitation T)
deriving DecidableEq

structure OutputTextPart (T : Type) where
  text : T
  annotations : List ( Annotation T)
deriving DecidableEq

structure ReasoningTextPart (T : Type) where
  text : T
deriving DecidableEq

structure SummaryTextPart (T : Type) where
  text : T
deriving DecidableEq

inductive SummaryContent (T : Type) where
  | SummaryText (p : SummaryTextPart T)
deriving DecidableEq

/-- `SummaryPart` wraps a `#[serde(flatten)]`-ed `SummaryContent`. -/
structure SummaryPart (T : Type) where
  content : SummaryContent T
deriving DecidableEq

inductive ContentPart (T : Type) where
  | OutputText (p : OutputTextPart T)
  | ReasoningText (p : ReasoningTextPart T)
  | SummaryText (p : SummaryTextPart T)
deriving DecidableEq

structure MessageItem (T : Type) where
  id : T
  status : ItemStatus
  content : List (ContentPart T)
deriving DecidableEq

structure ReasoningItem (T : Type) where
  id : T
  summary : List (SummaryPart T)
  encrypted_content : Option T
deriving DecidableEq

structure FunctionCallItem (T : Type) where
  call_id : T
  name : T
  arguments : T
  status : ItemStatus
deriving DecidableEq

inductive OutputItem (T : Type) where
  | Message (i : MessageItem T)
  | Reasoning (i : ReasoningItem T)
  | FunctionCall (i : FunctionCallItem T)
deriving DecidableEq

structure OutputItemAddedData (T : Type) where
  output_index : Nat
  item : OutputItem T
  sequence_number : Nat
deriving DecidableEq

structure OutputItemDoneData (T : Type) where
  output_index : Nat
  item : OutputItem T
  sequence_number : Nat
deriving DecidableEq

structure ContentPartAddedData (T : Type) where
  item_id : T
  output_index : Nat
  content_index : Nat
  part : ContentPart T
  sequence_number : Nat
deriving DecidableEq

structure ContentPartDoneData (T : Type) where
  item_id : T
  output_index : Nat
  content_index : Nat
  part : ContentPart T
  sequence_number : Nat
deriving DecidableEq

structure OutputTextDeltaData (T : Type) where
  output_index : Nat
  item_id : T
  content_index : Nat
  delta : T
  sequence_number : Nat
deriving DecidableEq

structure OutputTextDoneData (T : Type) where
  item_id : T
  output_index : Nat
  content_index : Nat
  text : T
  sequence_number : Nat
deriving DecidableEq

structure ReasoningTextDeltaData (T : Type) where
  output_index : Nat
  item_id : T
  content_index : Nat
  delta : T
  sequence_number : Nat
deriving DecidableEq

structure ReasoningTextDoneData (T : Type) where
  output_index : Nat
  item_id : T
  content_index : Nat
  text : T
  sequence_number : Nat
deriving DecidableEq

structure ReasoningSummaryPartAddedData (T : Type) where
  output_index : Nat
  item_id : T
  summary_index : Nat
  part : SummaryPart T
  sequence_number : Nat
deriving DecidableEq

structure ReasoningSummaryTextDeltaData (T : Type) where
  item_id : T
  output_index : Nat
  summary_index : Nat
  delta : T
  sequence_number : Nat
deriving DecidableEq

structure ReasoningSummaryTextDoneData (T : Type) where
  output_index : Nat
  item_id : T
  summary_index : Nat
  text : T
  sequence_number : Nat
deriving DecidableEq

structure ReasoningSummaryPartDoneData (T : Type) where
  output_index : Nat
  item_id : T
  summary_index : Nat
  part : SummaryPart T
  sequence_number : Nat
deriving DecidableEq

structure FunctionCallArgumentsDeltaData (T : Type) where
  item_id : T
  output_index : Nat
  delta : T
  sequence_number : Nat
deriving DecidableEq

structure FunctionCallArgumentsDoneData (T : Type) where
  item_id : T
  output_index : Nat
  name : T
  arguments : T
  sequence_number : Nat
deriving DecidableEq

structure AnnotationAddedData (T : Type) where
  output_index : Nat
  item_id : T
  content_index : Nat
  sequence_number : Nat
  annotation_index : Nat
  annotation : Annotation T
deriving DecidableEq

/-- `StreamEvent<T>`: the internally tagged (`type`) union of the 18
recognised event kinds, in source order.  The three response-lifecycle
variants hold non-generic payloads. -/
inductive StreamEvent (T : Type) where
  | ResponseCreated (d : ResponseCreatedData)
  | ResponseInProgress (d : ResponseInProgressData)
  | ResponseOutputItemAdded (d : OutputItemAddedData T)
  | ResponseContentPartAdded (d : ContentPartAddedData T)
  | ResponseOutputTextDelta (d : OutputTextDeltaData T)
  | ResponseOutputTextAnnotationAdded (d : AnnotationAddedData T)
  | ResponseOutputTextDone (d : OutputTextDoneData T)
  | ResponseContentPartDone (d : ContentPartDoneData T)
  | ResponseOutputItemDone (d : OutputItemDoneData T)
  | ResponseFunctionCallArgumentsDelta (d : FunctionCallArgumentsDeltaData T)
  | ResponseFunctionCallArgumentsDone (d : FunctionCallArgumentsDoneData T)
  | ResponseReasoningTextDelta (d : ReasoningTextDeltaData T)
  | ResponseReasoningTextDone (d : ReasoningTextDoneData T)
  | ResponseReasoningSummaryPartAdded (d : ReasoningSummaryPartAddedData T)
  | ResponseReasoningSummaryTextDelta (d : ReasoningSummaryTextDeltaData T)
  | ResponseReasoningSummaryTextDone (d : ReasoningSummaryTextDoneData T)
  | ResponseReasoningSummaryPartDone (d : ReasoningSummaryPartDoneData T)
  | ResponseCompleted (d : ResponseCompletedData)
deriving DecidableEq

/-! ## ConvertToOwned (stream_item/mod.rs, `impl_conversion!` expansion)

`impl ConvertToOwned for Vec<T>` / `Option<T>` become `convertVec` /
`convertOpt`; each `impl_conversion!` invocation becomes one
`convert_to_owned` definition converting exactly the listed fields and
copying the rest.  `Option` is the panic monad (see `Str.slice_ref`). -/

def convertVec {α β : Type} (f : α → Option β) : List α → Option (List β)
  | [] => some []
  | x :: xs => do
    let y ← f x
    let ys ← convertVec f xs
    pure (y :: ys)

def convertOpt {α β : Type} (f : α → Option β) : Option α → Option (Option β)
  | none => some none
  | some x => (f x).map some

/-- `impl_conversion!(ResponseStatus)`: identity. -/
def ResponseStatus.convert_to_owned (x : ResponseStatus) (_ : Str) :
    Option ResponseStatus :=
  some x

/-- `impl_conversion!(ItemStatus)`: identity. -/
def ItemStatus.convert_to_owned (x : ItemStatus) (_ : Str) :
    Option ItemStatus :=
  some x

/-- `impl_conversion!(ResponseCreatedData)`: identity. -/
def ResponseCreatedData.convert_to_owned (x : ResponseCreatedData) (_ : Str) :
    Option ResponseCreatedData :=
  some x

/-- `impl_conversion!(ResponseInProgressData)`: identity. -/
def ResponseInProgressData.convert_to_owned (x : ResponseInProgressData)
    (_ : Str) : Option ResponseInProgressData :=
  some x

/-- `impl_conversion!(ResponseCompletedData)`: identity. -/
def ResponseCompletedData.convert_to_owned (x : ResponseCompletedData)
    (_ : Str) : Option ResponseCompletedData :=
  some x

/-- `impl_conversion!(ResponseMetadata)`: identity (at the default
parameter `Str`). -/
def ResponseMetadata.convert_to_owned (x : ResponseMetadata Str) (_ : Str) :
    Option (ResponseMetadata Str) :=
  some x

/-- `impl_conversion!(UsageInfo)`: identity. -/
def UsageInfo.convert_to_owned (x : UsageInfo) (_ : Str) : Option UsageInfo :=
  some x

/-- `impl_conversion!(UrlCitation struct [url, title] [start_index,
end_index])`. -/
def UrlCitation.convert_to_owned (x : UrlCitation CowStr) (buf : Str) :
    Option (UrlCitation Str) := do
  let url ← x.url.convert_to_owned buf
  let title ← x.title.convert_to_owned buf
  pure ⟨url, title, x.start_index, x.end_index⟩

/-- `impl_conversion!(Annotation enum [UrlCitation] [])`. -/
def Annotation.convert_to_owned (x : Annotation CowStr) (buf : Str) :
    Option ( Annotation Str) :=
  match x with
  | .UrlCitation val => (val.convert_to_owned buf).map .UrlCitation

/-- `impl_conversion!(OutputTextPart struct [text, annotations] [])`. -/
def OutputTextPart.convert_to_owned (x : OutputTextPart CowStr) (buf : Str) :
    Option (OutputTextPart Str) := do
  let text ← x.text.convert_to_owned buf
  let annotations ← convertVec (fun a => a.convert_to_owned buf) x.annotations
  pure ⟨text, annotations⟩

/-- `impl_conversion!(ReasoningTextPart struct [text] [])`. -/
def ReasoningTextPart.convert_to_owned (x : ReasoningTextPart CowStr)
    (buf : Str) : Option (ReasoningTextPart Str) := do
  let text ← x.text.convert_to_owned buf
  pure ⟨text⟩

/-- `impl_conversion!(SummaryTextPart struct [text] [])`. -/
def SummaryTextPart.convert_to_owned (x : SummaryTextPart CowStr)
    (buf : Str) : Option (SummaryTextPart Str) := do
  let text ← x.text.convert_to_owned buf
  pure ⟨text⟩

/-- `impl_conversion!(SummaryContent enum [SummaryText] [])`. -/
def SummaryContent.convert_to_owned (x : SummaryContent CowStr) (buf : Str) :
    Option (SummaryContent Str) :=
  match x with
  | .SummaryText val => (val.convert_to_owned buf).map .SummaryText

/-- `impl_conversion!(SummaryPart struct [content] [])`. -/
def SummaryPart.convert_to_owned (x : SummaryPart CowStr) (buf : Str) :
    Option (SummaryPart Str) := do
  let content ← x.content.convert_to_owned buf
  pure ⟨content⟩

/-- `impl_conversion!(ContentPart enum [OutputText, ReasoningText,
SummaryText] [])`. -/
def ContentPart.convert_to_owned (x : ContentPart CowStr) (buf : Str) :
    Option (ContentPart Str) :=
  match x with
  | .OutputText val => (val.convert_to_owned buf).map .OutputText
  | .ReasoningText val => (val.convert_to_owned buf).map .ReasoningText
  | .SummaryText val => (val.convert_to_owned buf).map .SummaryText

/-- `impl_conversion!(MessageItem struct [id, content] [status])`. -/
def MessageItem.convert_to_owned (x : MessageItem CowStr) (buf : Str) :
    Option (MessageItem Str) := do
  let id ← x.id.convert_to_owned buf
  let content ← convertVec (fun c => c.convert_to_owned buf) x.content
  pure ⟨id, x.status, content⟩

/-- `impl_conversion!(ReasoningItem struct [id, summary,
encrypted_content] [])`. -/
def ReasoningItem.convert_to_owned (x : ReasoningItem CowStr) (buf : Str) :
    Option (ReasoningItem Str) := do
  let id ← x.id.convert_to_owned buf
  let summary ← convertVec (fun s => s.convert_to_owned buf) x.summary
  let encrypted_content ← convertOpt (fun s => s.convert_to_owned buf)
    x.encrypted_content
  pure ⟨id, summary, encrypted_content⟩

/-- `impl_conversion!(FunctionCallItem struct [call_id, name, arguments]
[status])`. -/
def FunctionCallItem.convert_to_owned (x : FunctionCallItem CowStr)
    (buf : Str) : Option (FunctionCallItem Str) := do
  let call_id ← x.call_id.convert_to_owned buf
  let name ← x.name.convert_to_owned buf
  let arguments ← x.arguments.convert_to_owned buf
  pure ⟨call_id, name, arguments, x.status⟩

/-- `impl_conversion!(OutputItem enum [Message, Reasoning, FunctionCall]
[])`. -/
def OutputItem.convert_to_owned (x : OutputItem CowStr) (buf : Str) :
    Option (OutputItem Str) :=
  match x with
  | .Message val => (val.convert_to_owned buf).map .Message
  | .Reasoning val => (val.convert_to_owned buf).map .Reasoning
  | .FunctionCall val => (val.convert_to_owned buf).map .FunctionCall

/-- `impl_conversion!(OutputItemAddedData struct [item] [output_index,
sequence_number])`. -/
def OutputItemAddedData.convert_to_owned (x : OutputItemAddedData CowStr)
    (buf : Str) : Option (OutputItemAddedData Str) := do
  let item ← x.item.convert_to_owned buf
  pure ⟨x.output_index, item, x.sequence_number⟩

/-- `impl_conversion!(OutputItemDoneData struct [item] [output_index,
sequence_number])`. -/
def OutputItemDoneData.convert_to_owned (x : OutputItemDoneData CowStr)
    (buf : Str) : Option (OutputItemDoneData Str) := do
  let item ← x.item.convert_to_owned buf
  pure ⟨x.output_index, item, x.sequence_number⟩

/-- `impl_conversion!(ContentPartAddedData struct [item_id, part]
[output_index, content_index, sequence_number])`. -/
def ContentPartAddedData.convert_to_owned (x : ContentPartAddedData CowStr)
    (buf : Str) : Option (ContentPartAddedData Str) := do
  let item_id ← x.item_id.convert_to_owned buf
  let part ← x.part.convert_to_owned buf
  pure ⟨item_id, x.output_index, x.content_index, part, x.sequence_number⟩

/-- `impl_conversion!(ContentPartDoneData struct [item_id, part]
[output_index, content_index, sequence_number])`. -/
def ContentPartDoneData.convert_to_owned (x : ContentPartDoneData CowStr)
    (buf : Str) : Option (ContentPartDoneData Str) := do
  let item_id ← x.item_id.convert_to_owned buf
  let part ← x.part.convert_to_owned buf
  pure ⟨item_id, x.output_index, x.content_index, part, x.sequence_number⟩

/-- `impl_conversion!(OutputTextDeltaData struct [item_id, delta]
[output_index, content_index, sequence_number])`. -/
def OutputTextDeltaData.convert_to_owned (x : OutputTextDeltaData CowStr)
    (buf : Str) : Option (OutputTextDeltaData Str) := do
  let item_id ← x.item_id.convert_to_owned buf
  let delta ← x.delta.convert_to_owned buf
  pure ⟨x.output_index, item_id, x.content_index, delta, x.sequence_number⟩

/-- `impl_conversion!(OutputTextDoneData struct [item_id, text]
[output_index, content_index, sequence_number])`. -/
def OutputTextDoneData.convert_to_owned (x : OutputTextDoneData CowStr)
    (buf : Str) : Option (OutputTextDoneData Str) := do
  let item_id ← x.item_id.convert_to_owned buf
  let text ← x.text.convert_to_owned buf
  pure ⟨item_id, x.output_index, x.content_index, text, x.sequence_number⟩

/-- `impl_conversion!(ReasoningTextDeltaData struct [item_id, delta]
[output_index, content_index, sequence_number])`. -/
def ReasoningTextDeltaData.convert_to_owned
    (x : ReasoningTextDeltaData CowStr) (buf : Str) :
    Option (ReasoningTextDeltaData Str) := do
  let item_id ← x.item_id.convert_to_owned buf
  let delta ← x.delta.convert_to_owned buf
  pure ⟨x.output_index, item_id, x.content_index, delta, x.sequence_number⟩

/-- `impl_conversion!(ReasoningTextDoneData struct [item_id, text]
[output_index, content_index, sequence_number])`. -/
def ReasoningTextDoneData.convert_to_owned
    (x : ReasoningTextDoneData CowStr) (buf : Str) :
    Option (ReasoningTextDoneData Str) := do
  let item_id ← x.item_id.convert_to_owned buf
  let text ← x.text.convert_to_owned buf
  pure ⟨x.output_index, item_id, x.content_index, text, x.sequence_number⟩

/-- `impl_conversion!(ReasoningSummaryPartAddedData struct [item_id, part]
[output_index, summary_index, sequence_number])`. -/
def ReasoningSummaryPartAddedData.convert_to_owned
    (x : ReasoningSummaryPartAddedData CowStr) (buf : Str) :
    Option (ReasoningSummaryPartAddedData Str) := do
  let item_id ← x.item_id.convert_to_owned buf
  let part ← x.part.convert_to_owned buf
  pure ⟨x.output_index, item_id, x.summary_index, part, x.sequence_number⟩

/-- `impl_conversion!(ReasoningSummaryTextDeltaData struct [item_id,
delta] [output_index, summary_index, sequence_number])`. -/
def ReasoningSummaryTextDeltaData.convert_to_owned
    (x : ReasoningSummaryTextDeltaData CowStr) (buf : Str) :
    Option (ReasoningSummaryTextDeltaData Str) := do
  let item_id ← x.item_id.convert_to_owned buf
  let delta ← x.delta.convert_to_owned buf
  pure ⟨item_id, x.output_index, x.summary_index, delta, x.sequence_number⟩

/-- `impl_conversion!(ReasoningSummaryTextDoneData struct [item_id, text]
[output_index, summary_index, sequence_number])`. -/
def ReasoningSummaryTextDoneData.convert_to_owned
    (x : ReasoningSummaryTextDoneData CowStr) (buf : Str) :
    Option (ReasoningSummaryTextDoneData Str) := do
  let item_id ← x.item_id.convert_to_owned buf
  let text ← x.text.convert_to_owned buf
  pure ⟨x.output_index, item_id, x.summary_index, text, x.sequence_number⟩

/-- `impl_conversion!(ReasoningSummaryPartDoneData struct [item_id, part]
[output_index, summary_index, sequence_number])`. -/
def ReasoningSummaryPartDoneData.convert_to_owned
    (x : ReasoningSummaryPartDoneData CowStr) (buf : Str) :
    Option (ReasoningSummaryPartDoneData Str) := do
  let item_id ← x.item_id.convert_to_owned buf
  let part ← x.part.convert_to_owned buf
  pure ⟨x.output_index, item_id, x.summary_index, part, x.sequence_number⟩

/-- `impl_conversion!(FunctionCallArgumentsDeltaData struct [item_id,
delta] [output_index, sequence_number])`. -/
def FunctionCallArgumentsDeltaData.convert_to_owned
    (x : FunctionCallArgumentsDeltaData CowStr) (buf : Str) :
    Option (FunctionCallArgumentsDeltaData Str) := do
  let item_id ← x.item_id.convert_to_owned buf
  let delta ← x.delta.convert_to_owned buf
  pure ⟨item_id, x.output_index, delta, x.sequence_number⟩

/-- `impl_conversion!(FunctionCallArgumentsDoneData struct [item_id, name,
arguments] [output_index, sequence_number])`. -/
def FunctionCallArgumentsDoneData.convert_to_owned
    (x : FunctionCallArgumentsDoneData CowStr) (buf : Str) :
    Option (FunctionCallArgumentsDoneData Str) := do
  let item_id ← x.item_id.convert_to_owned buf
  let name ← x.name.convert_to_owned buf
  let arguments ← x.arguments.convert_to_owned buf
  pure ⟨item_id, x.output_index, name, arguments, x.sequence_number⟩

/-- `impl_conversion!(AnnotationAddedData struct [item_id, annotation]
[output_index, content_index, sequence_number, annotation_index])`. -/
def AnnotationAddedData.convert_to_owned (x : AnnotationAddedData CowStr)
    (buf : Str) : Option (AnnotationAddedData Str) := do
  let item_id ← x.item_id.convert_to_owned buf
  let ann ← x.annotation.convert_to_owned buf
  pure ⟨x.output_index, item_id, x.content_index, x.sequence_number,
    x.annotation_index, ann⟩

/-- `impl_conversion!(StreamEvent enum [ResponseCreated, ...,
ResponseCompleted] [])`: dispatch on the variant and convert its
payload. -/
def StreamEvent.convert_to_owned (e : StreamEvent CowStr) (buf : Str) :
    Option (StreamEvent Str) :=
  match e with
  | .ResponseCreated val => (val.convert_to_owned buf).map .ResponseCreated
  | .ResponseInProgress val =>
      (val.convert_to_owned buf).map .ResponseInProgress
  | .ResponseOutputItemAdded val =>
      (val.convert_to_owned buf).map .ResponseOutputItemAdded
  | .ResponseContentPartAdded val =>
      (val.convert_to_owned buf).map .ResponseContentPartAdded
  | .ResponseOutputTextDelta val =>
      (val.convert_to_owned buf).map .ResponseOutputTextDelta
  | .ResponseOutputTextAnnotationAdded val =>
      (val.convert_to_owned buf).map .ResponseOutputTextAnnotationAdded
  | .ResponseOutputTextDone val =>
      (val.convert_to_owned buf).map .ResponseOutputTextDone
  | .ResponseContentPartDone val =>
      (val.convert_to_owned buf).map .ResponseContentPartDone
  | .ResponseOutputItemDone val =>
      (val.convert_to_owned buf).map .ResponseOutputItemDone
  | .ResponseFunctionCallArgumentsDelta val =>
      (val.convert_to_owned buf).map .ResponseFunctionCallArgumentsDelta
  | .ResponseFunctionCallArgumentsDone val =>
      (val.convert_to_owned buf).map .ResponseFunctionCallArgumentsDone
  | .ResponseReasoningTextDelta val =>
      (val.convert_to_owned buf).map .ResponseReasoningTextDelta
  | .ResponseReasoningTextDone val =>
      (val.convert_to_owned buf).map .ResponseReasoningTextDone
  | .ResponseReasoningSummaryPartAdded val =>
      (val.convert_to_owned buf).map .ResponseReasoningSummaryPartAdded
  | .ResponseReasoningSummaryTextDelta val =>
      (val.convert_to_owned buf).map .ResponseReasoningSummaryTextDelta
  | .ResponseReasoningSummaryTextDone val =>
      (val.convert_to_owned buf).map .ResponseReasoningSummaryTextDone
  | .ResponseReasoningSummaryPartDone val =>
      (val.convert_to_owned buf).map .ResponseReasoningSummaryPartDone
  | .ResponseCompleted val => (val.convert_to_owned buf).map .ResponseCompleted

/-! ## Leaf maps and leaf lists

`mapLeaf` applies a function to every occurrence of the string-representation
parameter `T` (used to erase both the borrowed and the owned representation
to raw character content when stating the round-trip claim); `leaves` lists
those occurrences (used to state the subslice precondition of the
no-panic claim).  Non-generic payloads have no `T` positions. -/

def UrlCitation.mapLeaf {T U : Type} (f : T → U) (x : UrlCitation T) :
    UrlCitation U :=
  ⟨f x.url, f x.title, x.start_index, x.end_index⟩

def Annotation.mapLeaf {T U : Type} (f : T → U) : Annotation T → Annotation U
  | .UrlCitation c => .UrlCitation (c.mapLeaf f)

def OutputTextPart.mapLeaf {T U : Type} (f : T → U) (x : OutputTextPart T) :
    OutputTextPart U :=
  ⟨f x.text, x.annotations.map (fun a => a.mapLeaf f)⟩

def ReasoningTextPart.mapLeaf {T U : Type} (f : T → U)
    (x : ReasoningTextPart T) : ReasoningTextPart U :=
  ⟨f x.text⟩

def SummaryTextPart.mapLeaf {T U : Type} (f : T → U) (x : SummaryTextPart T) :
    SummaryTextPart U :=
  ⟨f x.text⟩

def SummaryContent.mapLeaf {T U : Type} (f : T → U) :
    SummaryContent T → SummaryContent U
  | .SummaryText p => .SummaryText (p.mapLeaf f)

def SummaryPart.mapLeaf {T U : Type} (f : T → U) (x : SummaryPart T) :
    SummaryPart U :=
  ⟨x.content.mapLeaf f⟩

def ContentPart.mapLeaf {T U : Type} (f : T → U) :
    ContentPart T → ContentPart U
  | .OutputText p => .OutputText (p.mapLeaf f)
  | .ReasoningText p => .ReasoningText (p.mapLeaf f)
  | .SummaryText p => .SummaryText (p.mapLeaf f)

def MessageItem.mapLeaf {T U : Type} (f : T → U) (x : MessageItem T) :
    MessageItem U :=
  ⟨f x.id, x.status, x.content.map (fun c => c.mapLeaf f)⟩

def ReasoningItem.mapLeaf {T U : Type} (f : T → U) (x : ReasoningItem T) :
    ReasoningItem U :=
  ⟨f x.id, x.summary.map (fun s => s.mapLeaf f), x.encrypted_content.map f⟩

def FunctionCallItem.mapLeaf {T U : Type} (f : T → U)
    (x : FunctionCallItem T) : FunctionCallItem U :=
  ⟨f x.call_id, f x.name, f x.arguments, x.status⟩

def OutputItem.mapLeaf {T U : Type} (f : T → U) : OutputItem T → OutputItem U
  | .Message i => .Message (i.mapLeaf f)
  | .Reasoning i => .Reasoning (i.mapLeaf f)
  | .FunctionCall i => .FunctionCall (i.mapLeaf f)

def OutputItemAddedData.mapLeaf {T U : Type} (f : T → U)
    (x : OutputItemAddedData T) : OutputItemAddedData U :=
  ⟨x.output_index, x.item.mapLeaf f, x.sequence_number⟩

def OutputItemDoneData.mapLeaf {T U : Type} (f : T → U)
    (x : OutputItemDoneData T) : OutputItemDoneData U :=
  ⟨x.output_index, x.item.mapLeaf f, x.sequence_number⟩

def ContentPartAddedData.mapLeaf {T U : Type} (f : T → U)
    (x : ContentPartAddedData T) : ContentPartAddedData U :=
  ⟨f x.item_id, x.output_index, x.content_index, x.part.mapLeaf f,
    x.sequence_number⟩

def ContentPartDoneData.mapLeaf {T U : Type} (f : T → U)
    (x : ContentPartDoneData T) : ContentPartDoneData U :=
  ⟨f x.item_id, x.output_index, x.content_index, x.part.mapLeaf f,
    x.sequence_number⟩

def OutputTextDeltaData.mapLeaf {T U : Type} (f : T → U)
    (x : OutputTextDeltaData T) : OutputTextDeltaData U :=
  ⟨x.output_index, f x.item_id, x.content_index, f x.delta,
    x.sequence_number⟩

def OutputTextDoneData.mapLeaf {T U : Type} (f : T → U)
    (x : OutputTextDoneData T) : OutputTextDoneData U :=
  ⟨f x.item_id, x.output_index, x.content_index, f x.text,
    x.sequence_number⟩

def ReasoningTextDeltaData.mapLeaf {T U : Type} (f : T → U)
    (x : ReasoningTextDeltaData T) : ReasoningTextDeltaData U :=
  ⟨x.output_index, f x.item_id, x.content_index, f x.delta,
    x.sequence_number⟩

def ReasoningTextDoneData.mapLeaf {T U : Type} (f : T → U)
    (x : ReasoningTextDoneData T) : ReasoningTextDoneData U :=
  ⟨x.output_index, f x.item_id, x.content_index, f x.text,
    x.sequence_number⟩

def ReasoningSummaryPartAddedData.mapLeaf {T U : Type} (f : T → U)
    (x : ReasoningSummaryPartAddedData T) : ReasoningSummaryPartAddedData U :=
  ⟨x.output_index, f x.item_id, x.summary_index, x.part.mapLeaf f,
    x.sequence_number⟩

def ReasoningSummaryTextDeltaData.mapLeaf {T U : Type} (f : T → U)
    (x : ReasoningSummaryTextDeltaData T) :
    ReasoningSummaryTextDeltaData U :=
  ⟨f x.item_id, x.output_index, x.summary_index, f x.delta,
    x.sequence_number⟩

def ReasoningSummaryTextDoneData.mapLeaf {T U : Type} (f : T → U)
    (x : ReasoningSummaryTextDoneData T) : ReasoningSummaryTextDoneData U :=
  ⟨x.output_index, f x.item_id, x.summary_index, f x.text,
    x.sequence_number⟩

def ReasoningSummaryPartDoneData.mapLeaf {T U : Type} (f : T → U)
    (x : ReasoningSummaryPartDoneData T) : ReasoningSummaryPartDoneData U :=
  ⟨x.output_index, f x.item_id, x.summary_index, x.part.mapLeaf f,
    x.sequence_number⟩

def FunctionCallArgumentsDeltaData.mapLeaf {T U : Type} (f : T → U)
    (x : FunctionCallArgumentsDeltaData T) :
    FunctionCallArgumentsDeltaData U :=
  ⟨f x.item_id, x.output_index, f x.delta, x.sequence_number⟩

def FunctionCallArgumentsDoneData.mapLeaf {T U : Type} (f : T → U)
    (x : FunctionCallArgumentsDoneData T) : FunctionCallArgumentsDoneData U :=
  ⟨f x.item_id, x.output_index, f x.name, f x.arguments, x.sequence_number⟩

def AnnotationAddedData.mapLeaf {T U : Type} (f : T → U)
    (x : AnnotationAddedData T) : AnnotationAddedData U :=
  ⟨x.output_index, f x.item_id, x.content_index, x.sequence_number,
    x.annotation_index, x.annotation.mapLeaf f⟩

def StreamEvent.mapLeaf {T U : Type} (f : T → U) :
    StreamEvent T → StreamEvent U
  | .ResponseCreated d => .ResponseCreated d
  | .ResponseInProgress d => .ResponseInProgress d
  | .ResponseOutputItemAdded d => .ResponseOutputItemAdded (d.mapLeaf f)
  | .ResponseContentPartAdded d => .ResponseContentPartAdded (d.mapLeaf f)
  | .ResponseOutputTextDelta d => .ResponseOutputTextDelta (d.mapLeaf f)
  | .ResponseOutputTextAnnotationAdded d =>
      .ResponseOutputTextAnnotationAdded (d.mapLeaf f)
  | .ResponseOutputTextDone d => .ResponseOutputTextDone (d.mapLeaf f)
  | .ResponseContentPartDone d => .ResponseContentPartDone (d.mapLeaf f)
  | .ResponseOutputItemDone d => .ResponseOutputItemDone (d.mapLeaf f)
  | .ResponseFunctionCallArgumentsDelta d =>
      .ResponseFunctionCallArgumentsDelta (d.mapLeaf f)
  | .ResponseFunctionCallArgumentsDone d =>
      .ResponseFunctionCallArgumentsDone (d.mapLeaf f)
  | .ResponseReasoningTextDelta d => .ResponseReasoningTextDelta (d.mapLeaf f)
  | .ResponseReasoningTextDone d => .ResponseReasoningTextDone (d.mapLeaf f)
  | .ResponseReasoningSummaryPartAdded d =>
      .ResponseReasoningSummaryPartAdded (d.mapLeaf f)
  | .ResponseReasoningSummaryTextDelta d =>
      .ResponseReasoningSummaryTextDelta (d.mapLeaf f)
  | .ResponseReasoningSummaryTextDone d =>
      .ResponseReasoningSummaryTextDone (d.mapLeaf f)
  | .ResponseReasoningSummaryPartDone d =>
      .ResponseReasoningSummaryPartDone (d.mapLeaf f)
  | .ResponseCompleted d => .ResponseCompleted d

def UrlCitation.leaves {T : Type} (x : UrlCitation T) : List T :=
  [x.url, x.title]

def Annotation.leaves {T : Type} : Annotation T → List T
  | .UrlCitation c => c.leaves

def OutputTextPart.leaves {T : Type} (x : OutputTextPart T) : List T :=
  x.text :: x.annotations.flatMap (fun a => a.leaves)

def ReasoningTextPart.leaves {T : Type} (x : ReasoningTextPart T) : List T :=
  [x.text]

def SummaryTextPart.leaves {T : Type} (x : SummaryTextPart T) : List T :=
  [x.text]

def SummaryContent.leaves {T : Type} : SummaryContent T → List T
  | .SummaryText p => p.leaves

def SummaryPart.leaves {T : Type} (x : SummaryPart T) : List T :=
  x.content.leaves

def ContentPart.leaves {T : Type} : ContentPart T → List T
  | .OutputText p => p.leaves
  | .ReasoningText p => p.leaves
  | .SummaryText p => p.leaves

def MessageItem.leaves {T : Type} (x : MessageItem T) : List T :=
  x.id :: x.content.flatMap (fun c => c.leaves)

def ReasoningItem.leaves {T : Type} (x : ReasoningItem T) : List T :=
  x.id :: (x.summary.flatMap (fun s => s.leaves) ++
    x.encrypted_content.toList)

def FunctionCallItem.leaves {T : Type} (x : FunctionCallItem T) : List T :=
  [x.call_id, x.name, x.arguments]

def OutputItem.leaves {T : Type} : OutputItem T → List T
  | .Message i => i.leaves
  | .Reasoning i => i.leaves
  | .FunctionCall i => i.leaves

def OutputItemAddedData.leaves {T : Type} (x : OutputItemAddedData T) :
    List T :=
  x.item.leaves

def OutputItemDoneData.leaves {T : Type} (x : OutputItemDoneData T) :
    List T :=
  x.item.leaves

def ContentPartAddedData.leaves {T : Type} (x : ContentPartAddedData T) :
    List T :=
  x.item_id :: x.part.leaves

def ContentPartDoneData.leaves {T : Type} (x : ContentPartDoneData T) :
    List T :=
  x.item_id :: x.part.leaves

def OutputTextDeltaData.leaves {T : Type} (x : OutputTextDeltaData T) :
    List T :=
  [x.item_id, x.delta]

def OutputTextDoneData.leaves {T : Type} (x : OutputTextDoneData T) :
    List T :=
  [x.item_id, x.text]

def ReasoningTextDeltaData.leaves {T : Type} (x : ReasoningTextDeltaData T) :
    List T :=
  [x.item_id, x.delta]

def ReasoningTextDoneData.leaves {T : Type} (x : ReasoningTextDoneData T) :
    List T :=
  [x.item_id, x.text]

def ReasoningSummaryPartAddedData.leaves {T : Type}
    (x : ReasoningSummaryPartAddedData T) : List T :=
  x.item_id :: x.part.leaves

def ReasoningSummaryTextDeltaData.leaves {T : Type}
    (x : ReasoningSummaryTextDeltaData T) : List T :=
  [x.item_id, x.delta]

def ReasoningSummaryTextDoneData.leaves {T : Type}
    (x : ReasoningSummaryTextDoneData T) : List T :=
  [x.item_id, x.text]

def ReasoningSummaryPartDoneData.leaves {T : Type}
    (x : ReasoningSummaryPartDoneData T) : List T :=
  x.item_id :: x.part.leaves

def FunctionCallArgumentsDeltaData.leaves {T : Type}
    (x : FunctionCallArgumentsDeltaData T) : List T :=
  [x.item_id, x.delta]

def FunctionCallArgumentsDoneData.leaves {T : Type}
    (x : FunctionCallArgumentsDoneData T) : List T :=
  [x.item_id, x.name, x.arguments]

def AnnotationAddedData.leaves {T : Type} (x : AnnotationAddedData T) :
    List T :=
  x.item_id :: x.annotation.leaves

def StreamEvent.leaves {T : Type} : StreamEvent T → List T
  | .ResponseCreated _ => []
  | .ResponseInProgress _ => []
  | .ResponseOutputItemAdded d => d.leaves
  | .ResponseContentPartAdded d => d.leaves
  | .ResponseOutputTextDelta d => d.leaves
  | .ResponseOutputTextAnnotationAdded d => d.leaves
  | .ResponseOutputTextDone d => d.leaves
  | .ResponseContentPartDone d => d.leaves
  | .ResponseOutputItemDone d => d.leaves
  | .ResponseFunctionCallArgumentsDelta d => d.leaves
  | .ResponseFunctionCallArgumentsDone d => d.leaves
  | .ResponseReasoningTextDelta d => d.leaves
  | .ResponseReasoningTextDone d => d.leaves
  | .ResponseReasoningSummaryPartAdded d => d.leaves
  | .ResponseReasoningSummaryTextDelta d => d.leaves
  | .ResponseReasoningSummaryTextDone d => d.leaves
  | .ResponseReasoningSummaryPartDone d => d.leaves
  | .ResponseCompleted _ => []

/-! ## The serde_json decoder, embedded

`Json` is the parsed value tree (numbers as `Rat`: serde_json holds an
integer in `u64`/`i64` range exactly, anything else as a float, and
deserialising an integer field from a float or an out-of-range integer
fails).  `DecodeError` models the diagnostics of `serde_json::Error`.
The decoders below follow the serde derives on the source types:
internally tagged enums on the `type` key, optional fields (`Option<_>`:
missing or `null` is `None`), `#[serde(default = "Vec::new")]` vectors
(missing is the empty vector), unknown object keys ignored, unknown
discriminator values a hard error. -/

inductive Json where
  | null
  | bool (b : Bool)
  | num (q : Rat)
  | str (s : String)
  | arr (xs : List Json)
  | obj (fields : List (String × Json))

/-- Model of the diagnostics a `serde_json::Error` carries. -/
inductive DecodeError where
  | missingField (name : String)
  | invalidType (field : String)
  | outOfRange (field : String)
  | unknownVariant (tag : String)
deriving DecidableEq

/-- First value stored under `name` in a JSON object. -/
def Json.getField (o : List (String × Json)) (name : String) : Option Json :=
  match o.find? (fun p => p.1 == name) with
  | some p => some p.2
  | none => none

/-- A required field: missing is `Error::missing_field`. -/
def reqField (o : List (String × Json)) (name : String) :
    Except DecodeError Json :=
  match Json.getField o name with
  | some j => .ok j
  | none => .error (.missingField name)

/-- Deserialising a `u64` field: only an integer in `[0, 2^64)` is
accepted; a fractional number is an invalid type, an integer out of range
an invalid value. -/
def decodeU64 (field : String) : Json → Except DecodeError Nat
  | .num q =>
    if q.den = 1 then
      if 0 ≤ q.num ∧ q.num < (2 : Int) ^ 64 then .ok q.num.toNat
      else .error (.outOfRange field)
    else .error (.invalidType field)
  | _ => .error (.invalidType field)

/-- Deserialising a `u32` field: only an integer in `[0, 2^32)` is
accepted. -/
def decodeU32 (field : String) : Json → Except DecodeError Nat
  | .num q =>
    if q.den = 1 then
      if 0 ≤ q.num ∧ q.num < (2 : Int) ^ 32 then .ok q.num.toNat
      else .error (.outOfRange field)
    else .error (.invalidType field)
  | _ => .error (.invalidType field)

/-- Deserialising an `f64` field: any JSON number is accepted. -/
def decodeF64 (field : String) : Json → Except DecodeError Rat
  | .num q => .ok q
  | _ => .error (.invalidType field)

/-- Deserialising a `Cow<'_, str>` leaf: serde's stock `Cow` impl
deserialises a `String`, i.e. an owned allocation holding the (already
unescaped) text.  `mkAlloc` stands for the fresh allocation the `String`
occupies. -/
def decodeCowStr (mkAlloc : List Char → Alloc) (field : String) :
    Json → Except DecodeError CowStr
  | .str s => .ok (.owned (mkAlloc s.toList))
  | _ => .error (.invalidType field)

/-- Deserialising a `bytes_utils::Str` leaf (used by the non-generic
lifecycle payloads): a `String` is deserialised and wrapped, giving an
independently owned handle viewing its whole allocation. -/
def decodeStr (mkAlloc : List Char → Alloc) (field : String) :
    Json → Except DecodeError Str
  | .str s => .ok ⟨mkAlloc s.toList, 0, s.toList.length⟩
  | _ => .error (.invalidType field)

/-- An `Option<_>` field: missing or `null` is `None`. -/
def optField {α : Type} (o : List (String × Json)) (name : String)
    (dec : Json → Except DecodeError α) : Except DecodeError (Option α) :=
  match Json.getField o name with
  | none => .ok none
  | some .null => .ok none
  | some j => (dec j).map some

/-- Element-wise list decode, preserving order. -/
def decodeList {α : Type} (dec : Json → Except DecodeError α) :
    List Json → Except DecodeError (List α)
  | [] => .ok []
  | j :: js => do
    let a ← dec j
    let rest ← decodeList dec js
    pure (a :: rest)

/-- A `#[serde(default = "Vec::new")]` vector field: missing is the empty
vector. -/
def vecField {α : Type} (o : List (String × Json)) (name : String)
    (dec : Json → Except DecodeError α) : Except DecodeError (List α) :=
  match Json.getField o name with
  | none => .ok []
  | some (.arr xs) => decodeList dec xs
  | some _ => .error (.invalidType name)

/-- `ResponseStatus`: a unit enum from `in_progress` / `completed`
(`rename_all = "snake_case"`). -/
def decodeResponseStatus : Json → Except DecodeError ResponseStatus
  | .str s =>
    if s = "in_progress" then .ok .InProgress
    else if s = "completed" then .ok .Completed
    else .error (.unknownVariant s)
  | _ => .error (.invalidType "status")

/-- `ItemStatus`: a unit enum from `in_progress` / `completed`. -/
def decodeItemStatus : Json → Except DecodeError ItemStatus
  | .str s =>
    if s = "in_progress" then .ok .InProgress
    else if s = "completed" then .ok .Completed
    else .error (.unknownVariant s)
  | _ => .error (.invalidType "status")

def decodeUsageInfo : Json → Except DecodeError UsageInfo
  | .obj o => do
    let input_tokens ← decodeU64 "input_tokens" (← reqField o "input_tokens")
    let output_tokens ←
      decodeU64 "output_tokens" (← reqField o "output_tokens")
    let total_tokens ← decodeU64 "total_tokens" (← reqField o "total_tokens")
    let cost ← optField o "cost" (decodeF64 "cost")
    pure ⟨input_tokens, output_tokens, total_tokens, cost⟩
  | _ => .error (.invalidType "usage")

def decodeResponseMetadata (mkAlloc : List Char → Alloc) :
    Json → Except DecodeError (ResponseMetadata Str)
  | .obj o => do
    let id ← decodeStr mkAlloc "id" (← reqField o "id")
    let status ← decodeResponseStatus (← reqField o "status")
    let usage ← optField o "usage" decodeUsageInfo
    pure ⟨id, status, usage⟩
  | _ => .error (.invalidType "response")

def decodeResponseCreatedData (mkAlloc : List Char → Alloc)
    (o : List (String × Json)) : Except DecodeError ResponseCreatedData := do
  let response ← decodeResponseMetadata mkAlloc (← reqField o "response")
  let sequence_number ←
    decodeU64 "sequence_number" (← reqField o "sequence_number")
  pure ⟨response, sequence_number⟩

def decodeResponseInProgressData (o : List (String × Json)) :
    Except DecodeError ResponseInProgressData := do
  let sequence_number ←
    decodeU64 "sequence_number" (← reqField o "sequence_number")
  pure ⟨sequence_number⟩

def decodeResponseCompletedData (mkAlloc : List Char → Alloc)
    (o : List (String × Json)) : Except DecodeError ResponseCompletedData := do
  let response ← decodeResponseMetadata mkAlloc (← reqField o "response")
  let sequence_number ←
    decodeU64 "sequence_number" (← reqField o "sequence_number")
  pure ⟨response, sequence_number⟩

def decodeUrlCitation (mkAlloc : List Char → Alloc)
    (o : List (String × Json)) :
    Except DecodeError (UrlCitation CowStr) := do
  let url ← decodeCowStr mkAlloc "url" (← reqField o "url")
  let title ← decodeCowStr mkAlloc "title" (← reqField o "title")
  let start_index ← decodeU32 "start_index" (← reqField o "start_index")
  let end_index ← decodeU32 "end_index" (← reqField o "end_index")
  pure ⟨url, title, start_index, end_index⟩

/-- `Annotation`: internally tagged on `type`, one variant
`url_citation`. -/
def decodeAnnotationValue (mkAlloc : List Char → Alloc) :
    Json → Except DecodeError ( Annotation CowStr)
  | .obj o =>
    match Json.getField o "type" with
    | some (.str tag) =>
      if tag = "url_citation" then
        Except.map Annotation.UrlCitation (decodeUrlCitation mkAlloc o)
      else .error (.unknownVariant tag)
    | some _ => .error (.invalidType "type")
    | none => .error (.missingField "type")
  | _ => .error (.invalidType "annotation")

def decodeOutputTextPart (mkAlloc : List Char → Alloc)
    (o : List (String × Json)) :
    Except DecodeError (OutputTextPart CowStr) := do
  let text ← decodeCowStr mkAlloc "text" (← reqField o "text")
  let annotations ← vecField o "annotations" (decodeAnnotationValue mkAlloc)
  pure ⟨text, annotations⟩

def decodeReasoningTextPart (mkAlloc : List Char → Alloc)
    (o : List (String × Json)) :
    Except DecodeError (ReasoningTextPart CowStr) := do
  let text ← decodeCowStr mkAlloc "text" (← reqField o "text")
  pure ⟨text⟩

def decodeSummaryTextPart (mkAlloc : List Char → Alloc)
    (o : List (String × Json)) :
    Except DecodeError (SummaryTextPart CowStr) := do
  let text ← decodeCowStr mkAlloc "text" (← reqField o "text")
  pure ⟨text⟩

/-- `ContentPart`: internally tagged on `type`. -/
def decodeContentPart (mkAlloc : List Char → Alloc) :
    Json → Except DecodeError (ContentPart CowStr)
  | .obj o =>
    match Json.getField o "type" with
    | some (.str tag) =>
      if tag = "output_text" then
        Except.map ContentPart.OutputText (decodeOutputTextPart mkAlloc o)
      else if tag = "reasoning_text" then
        Except.map ContentPart.ReasoningText
          (decodeReasoningTextPart mkAlloc o)
      else if tag = "summary_text" then
        Except.map ContentPart.SummaryText (decodeSummaryTextPart mkAlloc o)
      else .error (.unknownVariant tag)
    | some _ => .error (.invalidType "type")
    | none => .error (.missingField "type")
  | _ => .error (.invalidType "part")

/-- `SummaryContent`: internally tagged on `type`, one variant
`summary_text`. -/
def decodeSummaryContent (mkAlloc : List Char → Alloc)
    (o : List (String × Json)) :
    Except DecodeError (SummaryContent CowStr) :=
  match Json.getField o "type" with
  | some (.str tag) =>
    if tag = "summary_text" then
      Except.map SummaryContent.SummaryText (decodeSummaryTextPart mkAlloc o)
    else .error (.unknownVariant tag)
  | some _ => .error (.invalidType "type")
  | none => .error (.missingField "type")

/-- `SummaryPart`: its single field is `#[serde(flatten)]`-ed, so the
`SummaryContent` discriminator is read from the same object. -/
def decodeSummaryPart (mkAlloc : List Char → Alloc) :
    Json → Except DecodeError (SummaryPart CowStr)
  | .obj o => Except.map (fun c => ⟨c⟩) (decodeSummaryContent mkAlloc o)
  | _ => .error (.invalidType "part")

def decodeMessageItem (mkAlloc : List Char → Alloc)
    (o : List (String × Json)) :
    Except DecodeError (MessageItem CowStr) := do
  let id ← decodeCowStr mkAlloc "id" (← reqField o "id")
  let status ← decodeItemStatus (← reqField o "status")
  let content ← vecField o "content" (decodeContentPart mkAlloc)
  pure ⟨id, status, content⟩

def decodeReasoningItem (mkAlloc : List Char → Alloc)
    (o : List (String × Json)) :
    Except DecodeError (ReasoningItem CowStr) := do
  let id ← decodeCowStr mkAlloc "id" (← reqField o "id")
  let summary ← vecField o "summary" (decodeSummaryPart mkAlloc)
  let encrypted_content ←
    optField o "encrypted_content" (decodeCowStr mkAlloc "encrypted_content")
  pure ⟨id, summary, encrypted_content⟩

def decodeFunctionCallItem (mkAlloc : List Char → Alloc)
    (o : List (String × Json)) :
    Except DecodeError (FunctionCallItem CowStr) := do
  let call_id ← decodeCowStr mkAlloc "call_id" (← reqField o "call_id")
  let name ← decodeCowStr mkAlloc "name" (← reqField o "name")
  let arguments ← decodeCowStr mkAlloc "arguments" (← reqField o "arguments")
  let status ← decodeItemStatus (← reqField o "status")
  pure ⟨call_id, name, arguments, status⟩

/-- `OutputItem`: internally tagged on `type`, variants `message`,
`reasoning`, `function_call`. -/
def decodeOutputItem (mkAlloc : List Char → Alloc) :
    Json → Except DecodeError (OutputItem CowStr)
  | .obj o =>
    match Json.getField o "type" with
    | some (.str tag) =>
      if tag = "message" then
        Except.map OutputItem.Message (decodeMessageItem mkAlloc o)
      else if tag = "reasoning" then
        Except.map OutputItem.Reasoning (decodeReasoningItem mkAlloc o)
      else if tag = "function_call" then
        Except.map OutputItem.FunctionCall (decodeFunctionCallItem mkAlloc o)
      else .error (.unknownVariant tag)
    | some _ => .error (.invalidType "type")
    | none => .error (.missingField "type")
  | _ => .error (.invalidType "item")

def decodeOutputItemAddedData (mkAlloc : List Char → Alloc)
    (o : List (String × Json)) :
    Except DecodeError (OutputItemAddedData CowStr) := do
  let output_index ← decodeU32 "output_index" (← reqField o "output_index")
  let item ← decodeOutputItem mkAlloc (← reqField o "item")
  let sequence_number ←
    decodeU64 "sequence_number" (← reqField o "sequence_number")
  pure ⟨output_index, item, sequence_number⟩

def decodeOutputItemDoneData (mkAlloc : List Char → Alloc)
    (o : List (String × Json)) :
    Except DecodeError (OutputItemDoneData CowStr) := do
  let output_index ← decodeU32 "output_index" (← reqField o "output_index")
  let item ← decodeOutputItem mkAlloc (← reqField o "item")
  let sequence_number ←
    decodeU64 "sequence_number" (← reqField o "sequence_number")
  pure ⟨output_index, item, sequence_number⟩

def decodeContentPartAddedData (mkAlloc : List Char → Alloc)
    (o : List (String × Json)) :
    Except DecodeError (ContentPartAddedData CowStr) := do
  let item_id ← decodeCowStr mkAlloc "item_id" (← reqField o "item_id")
  let output_index ← decodeU32 "output_index" (← reqField o "output_index")
  let content_index ←
    decodeU32 "content_index" (← reqField o "content_index")
  let part ← decodeContentPart mkAlloc (← reqField o "part")
  let sequence_number ←
    decodeU64 "sequence_number" (← reqField o "sequence_number")
  pure ⟨item_id, output_index, content_index, part, sequence_number⟩

def decodeContentPartDoneData (mkAlloc : List Char → Alloc)
    (o : List (String × Json)) :
    Except DecodeError (ContentPartDoneData CowStr) := do
  let item_id ← decodeCowStr mkAlloc "item_id" (← reqField o "item_id")
  let output_index ← decodeU32 "output_index" (← reqField o "output_index")
  let content_index ←
    decodeU32 "content_index" (← reqField o "content_index")
  let part ← decodeContentPart mkAlloc (← reqField o "part")
  let sequence_number ←
    decodeU64 "sequence_number" (← reqField o "sequence_number")
  pure ⟨item_id, output_index, content_index, part, sequence_number⟩

def decodeOutputTextDeltaData (mkAlloc : List Char → Alloc)
    (o : List (String × Json)) :
    Except DecodeError (OutputTextDeltaData CowStr) := do
  let output_index ← decodeU32 "output_index" (← reqField o "output_index")
  let item_id ← decodeCowStr mkAlloc "item_id" (← reqField o "item_id")
  let content_index ←
    decodeU32 "content_index" (← reqField o "content_index")
  let delta ← decodeCowStr mkAlloc "delta" (← reqField o "delta")
  let sequence_number ←
    decodeU64 "sequence_number" (← reqField o "sequence_number")
  pure ⟨output_index, item_id, content_index, delta, sequence_number⟩

def decodeOutputTextDoneData (mkAlloc : List Char → Alloc)
    (o : List (String × Json)) :
    Except DecodeError (OutputTextDoneData CowStr) := do
  let item_id ← decodeCowStr mkAlloc "item_id" (← reqField o "item_id")
  let output_index ← decodeU32 "output_index" (← reqField o "output_index")
  let content_index ←
    decodeU32 "content_index" (← reqField o "content_index")
  let text ← decodeCowStr mkAlloc "text" (← reqField o "text")
  let sequence_number ←
    decodeU64 "sequence_number" (← reqField o "sequence_number")
  pure ⟨item_id, output_index, content_index, text, sequence_number⟩

def decodeReasoningTextDeltaData (mkAlloc : List Char → Alloc)
    (o : List (String × Json)) :
    Except DecodeError (ReasoningTextDeltaData CowStr) := do
  let output_index ← decodeU32 "output_index" (← reqField o "output_index")
  let item_id ← decodeCowStr mkAlloc "item_id" (← reqField o "item_id")
  let content_index ←
    decodeU32 "content_index" (← reqField o "content_index")
  let delta ← decodeCowStr mkAlloc "delta" (← reqField o "delta")
  let sequence_number ←
    decodeU64 "sequence_number" (← reqField o "sequence_number")
  pure ⟨output_index, item_id, content_index, delta, sequence_number⟩

def decodeReasoningTextDoneData (mkAlloc : List Char → Alloc)
    (o : List (String × Json)) :
    Except DecodeError (ReasoningTextDoneData CowStr) := do
  let output_index ← decodeU32 "output_index" (← reqField o "output_index")
  let item_id ← decodeCowStr mkAlloc "item_id" (← reqField o "item_id")
  let content_index ←
    decodeU32 "content_index" (← reqField o "content_index")
  let text ← decodeCowStr mkAlloc "text" (← reqField o "text")
  let sequence_number ←
    decodeU64 "sequence_number" (← reqField o "sequence_number")
  pure ⟨output_index, item_id, content_index, text, sequence_number⟩

def decodeReasoningSummaryPartAddedData (mkAlloc : List Char → Alloc)
    (o : List (String × Json)) :
    Except DecodeError (ReasoningSummaryPartAddedData CowStr) := do
  let output_index ← decodeU32 "output_index" (← reqField o "output_index")
  let item_id ← decodeCowStr mkAlloc "item_id" (← reqField o "item_id")
  let summary_index ←
    decodeU32 "summary_index" (← reqField o "summary_index")
  let part ← decodeSummaryPart mkAlloc (← reqField o "part")
  let sequence_number ←
    decodeU64 "sequence_number" (← reqField o "sequence_number")
  pure ⟨output_index, item_id, summary_index, part, sequence_number⟩

def decodeReasoningSummaryTextDeltaData (mkAlloc : List Char → Alloc)
    (o : List (String × Json)) :
    Except DecodeError (ReasoningSummaryTextDeltaData CowStr) := do
  let item_id ← decodeCowStr mkAlloc "item_id" (← reqField o "item_id")
  let output_index ← decodeU32 "output_index" (← reqField o "output_index")
  let summary_index ←
    decodeU32 "summary_index" (← reqField o "summary_index")
  let delta ← decodeCowStr mkAlloc "delta" (← reqField o "delta")
  let sequence_number ←
    decodeU64 "sequence_number" (← reqField o "sequence_number")
  pure ⟨item_id, output_index, summary_index, delta, sequence_number⟩

def decodeReasoningSummaryTextDoneData (mkAlloc : List Char → Alloc)
    (o : List (String × Json)) :
    Except DecodeError (ReasoningSummaryTextDoneData CowStr) := do
  let output_index ← decodeU32 "output_index" (← reqField o "output_index")
  let item_id ← decodeCowStr mkAlloc "item_id" (← reqField o "item_id")
  let summary_index ←
    decodeU32 "summary_index" (← reqField o "summary_index")
  let text ← decodeCowStr mkAlloc "text" (← reqField o "text")
  let sequence_number ←
    decodeU64 "sequence_number" (← reqField o "sequence_number")
  pure ⟨output_index, item_id, summary_index, text, sequence_number⟩

def decodeReasoningSummaryPartDoneData (mkAlloc : List Char → Alloc)
    (o : List (String × Json)) :
    Except DecodeError (ReasoningSummaryPartDoneData CowStr) := do
  let output_index ← decodeU32 "output_index" (← reqField o "output_index")
  let item_id ← decodeCowStr mkAlloc "item_id" (← reqField o "item_id")
  let summary_index ←
    decodeU32 "summary_index" (← reqField o "summary_index")
  let part ← decodeSummaryPart mkAlloc (← reqField o "part")
  let sequence_number ←
    decodeU64 "sequence_number" (← reqField o "sequence_number")
  pure ⟨output_index, item_id, summary_index, part, sequence_number⟩

def decodeFunctionCallArgumentsDeltaData (mkAlloc : List Char → Alloc)
    (o : List (String × Json)) :
    Except DecodeError (FunctionCallArgumentsDeltaData CowStr) := do
  let item_id ← decodeCowStr mkAlloc "item_id" (← reqField o "item_id")
  let output_index ← decodeU32 "output_index" (← reqField o "output_index")
  let delta ← decodeCowStr mkAlloc "delta" (← reqField o "delta")
  let sequence_number ←
    decodeU64 "sequence_number" (← reqField o "sequence_number")
  pure ⟨item_id, output_index, delta, sequence_number⟩

def decodeFunctionCallArgumentsDoneData (mkAlloc : List Char → Alloc)
    (o : List (String × Json)) :
    Except DecodeError (FunctionCallArgumentsDoneData CowStr) := do
  let item_id ← decodeCowStr mkAlloc "item_id" (← reqField o "item_id")
  let output_index ← decodeU32 "output_index" (← reqField o "output_index")
  let name ← decodeCowStr mkAlloc "name" (← reqField o "name")
  let arguments ← decodeCowStr mkAlloc "arguments" (← reqField o "arguments")
  let sequence_number ←
    decodeU64 "sequence_number" (← reqField o "sequence_number")
  pure ⟨item_id, output_index, name, arguments, sequence_number⟩

def decodeAnnotationAddedData (mkAlloc : List Char → Alloc)
    (o : List (String × Json)) :
    Except DecodeError (AnnotationAddedData CowStr) := do
  let output_index ← decodeU32 "output_index" (← reqField o "output_index")
  let item_id ← decodeCowStr mkAlloc "item_id" (← reqField o "item_id")
  let content_index ←
    decodeU32 "content_index" (← reqField o "content_index")
  let sequence_number ←
    decodeU64 "sequence_number" (← reqField o "sequence_number")
  let annotation_index ←
    decodeU32 "annotation_index" (← reqField o "annotation_index")
  let ann ← decodeAnnotationValue mkAlloc (← reqField o "annotation")
  pure ⟨output_index, item_id, content_index, sequence_number,
    annotation_index, ann⟩

/-- The wire tag of each `StreamEvent` variant (`#[serde(rename)]`
values), in source order. -/
def StreamEvent.tagOf {T : Type} : StreamEvent T → String
  | .ResponseCreated _ => "response.created"
  | .ResponseInProgress _ => "response.in_progress"
  | .ResponseOutputItemAdded _ => "response.output_item.added"
  | .ResponseContentPartAdded _ => "response.content_part.added"
  | .ResponseOutputTextDelta _ => "response.output_text.delta"
  | .ResponseOutputTextAnnotationAdded _ =>
      "response.output_text.annotation.added"
  | .ResponseOutputTextDone _ => "response.output_text.done"
  | .ResponseContentPartDone _ => "response.content_part.done"
  | .ResponseOutputItemDone _ => "response.output_item.done"
  | .ResponseFunctionCallArgumentsDelta _ =>
      "response.function_call_arguments.delta"
  | .ResponseFunctionCallArgumentsDone _ =>
      "response.function_call_arguments.done"
  | .ResponseReasoningTextDelta _ => "response.reasoning_text.delta"
  | .ResponseReasoningTextDone _ => "response.reasoning_text.done"
  | .ResponseReasoningSummaryPartAdded _ =>
      "response.reasoning_summary_part.added"
  | .ResponseReasoningSummaryTextDelta _ =>
      "response.reasoning_summary_text.delta"
  | .ResponseReasoningSummaryTextDone _ =>
      "response.reasoning_summary_text.done"
  | .ResponseReasoningSummaryPartDone _ =>
      "response.reasoning_summary_part.done"
  | .ResponseCompleted _ => "response.completed"

/-- The fixed set of recognised discriminator values, in source order. -/
def recognisedTags : List String :=
  ["response.created", "response.in_progress", "response.output_item.added",
   "response.content_part.added", "response.output_text.delta",
   "response.output_text.annotation.added", "response.output_text.done",
   "response.content_part.done", "response.output_item.done",
   "response.function_call_arguments.delta",
   "response.function_call_arguments.done", "response.reasoning_text.delta",
   "response.reasoning_text.done", "response.reasoning_summary_part.added",
   "response.reasoning_summary_text.delta",
   "response.reasoning_summary_text.done",
   "response.reasoning_summary_part.done", "response.completed"]

/-- Dispatch on an already extracted discriminator value: the fixed set
of 18 tags, in source order; an unrecognised tag is a hard
`unknown variant` error (there is no fallback variant). -/
def decodeStreamEventTagged (mkAlloc : List Char → Alloc) (tag : String)
    (o : List (String × Json)) :
    Except DecodeError (StreamEvent CowStr) :=
  (if tag = "response.created" then
      Except.map StreamEvent.ResponseCreated
        (decodeResponseCreatedData mkAlloc o)
    else if tag = "response.in_progress" then
      Except.map StreamEvent.ResponseInProgress
        (decodeResponseInProgressData o)
    else if tag = "response.output_item.added" then
      Except.map StreamEvent.ResponseOutputItemAdded
        (decodeOutputItemAddedData mkAlloc o)
    else if tag = "response.content_part.added" then
      Except.map StreamEvent.ResponseContentPartAdded
        (decodeContentPartAddedData mkAlloc o)
    else if tag = "response.output_text.delta" then
      Except.map StreamEvent.ResponseOutputTextDelta
        (decodeOutputTextDeltaData mkAlloc o)
    else if tag = "response.output_text.annotation.added" then
      Except.map StreamEvent.ResponseOutputTextAnnotationAdded
        (decodeAnnotationAddedData mkAlloc o)
    else if tag = "response.output_text.done" then
      Except.map StreamEvent.ResponseOutputTextDone
        (decodeOutputTextDoneData mkAlloc o)
    else if tag = "response.content_part.done" then
      Except.map StreamEvent.ResponseContentPartDone
        (decodeContentPartDoneData mkAlloc o)
    else if tag = "response.output_item.done" then
      Except.map StreamEvent.ResponseOutputItemDone
        (decodeOutputItemDoneData mkAlloc o)
    else if tag = "response.function_call_arguments.delta" then
      Except.map StreamEvent.ResponseFunctionCallArgumentsDelta
        (decodeFunctionCallArgumentsDeltaData mkAlloc o)
    else if tag = "response.function_call_arguments.done" then
      Except.map StreamEvent.ResponseFunctionCallArgumentsDone
        (decodeFunctionCallArgumentsDoneData mkAlloc o)
    else if tag = "response.reasoning_text.delta" then
      Except.map StreamEvent.ResponseReasoningTextDelta
        (decodeReasoningTextDeltaData mkAlloc o)
    else if tag = "response.reasoning_text.done" then
      Except.map StreamEvent.ResponseReasoningTextDone
        (decodeReasoningTextDoneData mkAlloc o)
    else if tag = "response.reasoning_summary_part.added" then
      Except.map StreamEvent.ResponseReasoningSummaryPartAdded
        (decodeReasoningSummaryPartAddedData mkAlloc o)
    else if tag = "response.reasoning_summary_text.delta" then
      Except.map StreamEvent.ResponseReasoningSummaryTextDelta
        (decodeReasoningSummaryTextDeltaData mkAlloc o)
    else if tag = "response.reasoning_summary_text.done" then
      Except.map StreamEvent.ResponseReasoningSummaryTextDone
        (decodeReasoningSummaryTextDoneData mkAlloc o)
    else if tag = "response.reasoning_summary_part.done" then
      Except.map StreamEvent.ResponseReasoningSummaryPartDone
        (decodeReasoningSummaryPartDoneData mkAlloc o)
    else if tag = "response.completed" then
      Except.map StreamEvent.ResponseCompleted
        (decodeResponseCompletedData mkAlloc o)
    else .error (.unknownVariant tag))

/-- The internally tagged `StreamEvent<Cow<'_, str>>` deserialiser on an
object's fields: read the `type` discriminator (as serde's tagged-content
visitor does), then dispatch on it. -/
def decodeStreamEventObj (mkAlloc : List Char → Alloc)
    (o : List (String × Json)) :
    Except DecodeError (StreamEvent CowStr) :=
  match Json.getField o "type" with
  | some (.str tag) => decodeStreamEventTagged mkAlloc tag o
  | some _ => .error (.invalidType "type")
  | none => .error (.missingField "type")

/-- `serde_json::from_str::<StreamEvent<Cow<'_, str>>>` on an already
parsed JSON value: the top level must be an object. -/
def streamEventFromJson (mkAlloc : List Char → Alloc) :
    Json → Except DecodeError (StreamEvent CowStr)
  | .obj o => decodeStreamEventObj mkAlloc o
  | _ => .error (.invalidType "StreamEvent")

/-! ## The stream adapter state machine (stream/mod.rs)

`OAICompatResponsesStream::poll_next` is embedded as a step function: the
wrapped framer (`sseer::EventStream`, an external collaborator) is
represented by the answer it gives to this poll — a
`Poll<Option<Result<Event, EventStreamError<E>>>>` value, with the
event's `data` field (a `bytes_utils::Str`) standing for the record.
The decode-and-convert expression of the item branch
(`serde_json::from_str::<StreamEvent<Cow<'_, str>>>(&ev.data)
.map(|borrowed| borrowed.convert_to_owned(&ev.data))`) is passed in as
the function `dc`, so the state machine's behaviour can be stated for
every decoder. -/

/-- Model of `std::str::Utf8Error`. -/
structure Utf8Err where
  valid_up_to : Nat
deriving DecidableEq

/-- `sseer::errors::EventStreamError<E>`: transport failure or invalid
UTF-8 from the framer. -/
inductive EventStreamError (E : Type) where
  | Transport (e : E)
  | Utf8Error (u : Utf8Err)
deriving DecidableEq

/-- `OAICompatResponsesStreamError<E>`: the adapter's error type — its
exact three variants. -/
inductive OAICompatResponsesStreamError (E : Type) where
  | Transport (e : E)
  | Utf8Error (u : Utf8Err)
  | Deserialize (d : DecodeError)
deriving DecidableEq

/-- `impl From<EventStreamError<E>> for OAICompatResponsesStreamError<E>`. -/
def OAICompatResponsesStreamError.ofEventStreamError {E : Type} :
    EventStreamError E → OAICompatResponsesStreamError E
  | .Transport e => .Transport e
  | .Utf8Error u => .Utf8Error u

/-- `futures::task::Poll`. -/
inductive Poll (α : Type) where
  | ready (a : α)
  | pending
deriving DecidableEq

/-- `OAICompatResponsesStreamState<S>`: `Active` holds the wrapped framer
(external, so carried outside the state), `Terminated` holds nothing. -/
inductive OAICompatResponsesStreamState where
  | Active
  | Terminated
deriving DecidableEq

/-- What one poll of the wrapped framer returns. -/
def FramerPoll (E : Type) : Type :=
  Poll (Option (Except (EventStreamError E) Str))

/-- What one poll of the adapter returns to the consumer. -/
def AdapterPoll (E : Type) : Type :=
  Poll (Option (Except (OAICompatResponsesStreamError E) (StreamEvent Str)))

/-- The sentinel payload: the literal `[DONE]`. -/
def doneSentinel : List Char := "[DONE]".toList

/-- `OAICompatResponsesStream::poll_next`: one pull.  `dc` stands for the
item branch's `serde_json::from_str(..).map(|b| b.convert_to_owned(&ev.data))`
composite; it receives the record's payload.  Returns the successor state
and what the poll yields.  Branches in source order: Terminated returns
`None` before the framer is polled; `futures::ready!` propagates
`Pending`; a framer error is converted via `From` and returned with the
state untouched; framer end-of-stream sets Terminated and returns `None`;
a record equal to `[DONE]` (string comparison on the payload) sets
Terminated and returns `None` without decoding; any other record is
decoded, a decode failure being converted via `From`. -/
def OAICompatResponsesStream.poll_next {E : Type}
    (dc : Str → Except DecodeError (StreamEvent Str))
    (state : OAICompatResponsesStreamState) (framer : FramerPoll E) :
    OAICompatResponsesStreamState × AdapterPoll E :=
  match state with
  | .Terminated => (.Terminated, .ready none)
  | .Active =>
    match framer with
    | .pending => (.Active, .pending)
    | .ready (some (.error err)) =>
        (.Active, .ready (some (.error
          (OAICompatResponsesStreamError.ofEventStreamError err))))
    | .ready none => (.Terminated, .ready none)
    | .ready (some (.ok data)) =>
      if data.content = doneSentinel then (.Terminated, .ready none)
      else
        (.Active, .ready (some (match dc data with
          | .ok ev => .ok ev
          | .error e => .error (.Deserialize e))))

/-! ## Concrete values used to instantiate theorems with hypotheses -/

/-- Decoder used to instantiate the state-machine claims at a concrete
input. -/
def dcFail : Str → Except DecodeError (StreamEvent Str) :=
  fun _ => .error (.unknownVariant "nope")

/-- A concrete backing allocation. -/
def allocW : Alloc := ⟨0, "abcdef".toList⟩

/-- The backing buffer: the full view of `allocW`. -/
def bufW : Str := ⟨allocW, 0, 6⟩

/-- A concrete borrowed decoded event: an output-text delta whose
`item_id` and `delta` borrow subslices of `bufW`. -/
def eW : StreamEvent CowStr :=
  .ResponseOutputTextDelta
    ⟨1, .borrowed ⟨allocW, 0, 2⟩, 2, .borrowed ⟨allocW, 2, 3⟩, 5⟩

/-- The owned event `eW` converts to. -/
def eW' : StreamEvent Str :=
  .ResponseOutputTextDelta ⟨1, ⟨allocW, 0, 2⟩, 2, ⟨allocW, 2, 3⟩, 5⟩

/-- A concrete allocator for decoder instantiations: allocation identity
0 with the given content. -/
def mkW : List Char → Alloc := fun s => ⟨0, s⟩

/-- A concrete payload object with an unrecognised discriminator. -/
def oUnknownW : List (String × Json) := [("type", .str "bogus")]

/-- A concrete well-formed `response.in_progress` payload object. -/
def oInProgW : List (String × Json) :=
  [("type", .str "response.in_progress"), ("sequence_number", .num 0)]

/-- A concrete usage object whose `cost` is the fractional number 1/2. -/
def usageFracJson : Json :=
  .obj [("input_tokens", .num 1), ("output_tokens", .num 2),
    ("total_tokens", .num 3), ("cost", .num (1 / 2))]

/-! ## Helper lemmas -/

theorem bind_some_elim {α β : Type} {x : Option α} {f : α → Option β}
    {b : β} (h : (x >>= f) = some b) : ∃ a, x = some a ∧ f a = some b := by
  cases x <;> simp_all [Option.bind]

theorem except_bind_ok {ε α β : Type} {x : Except ε α}
    {f : α → Except ε β} {b : β} (h : (x >>= f) = .ok b) :
    ∃ a, x = .ok a ∧ f a = .ok b := by
  cases x <;> simp_all [Except.bind, Bind.bind]

theorem except_map_ok {ε α β : Type} {f : α → β} {x : Except ε α} {b : β}
    (h : Except.map f x = .ok b) : ∃ a, x = .ok a ∧ b = f a := by
  cases x <;> simp_all [Except.map]

theorem except_pure_ok {ε α : Type} {a b : α}
    (h : (pure a : Except ε α) = .ok b) : a = b :=
  Except.ok.inj h

theorem decodeU64_ok_lt {field : String} {j : Json} {n : Nat}
    (h : decodeU64 field j = .ok n) : n < 2 ^ 64 := by
  cases j with
  | num q =>
    simp only [decodeU64] at h
    split_ifs at h with h1 h2
    all_goals first
    | exact Except.noConfusion h
    | (injection h with h3
       subst h3
       have hlt := h2.2
       have e1 : (2 : Int) ^ 64 = 18446744073709551616 := by norm_num
       have e2 : (2 : Nat) ^ 64 = 18446744073709551616 := by norm_num
       rw [e2]
       rw [e1] at hlt
       omega)
  | null => exact Except.noConfusion h
  | bool b => exact Except.noConfusion h
  | str s => exact Except.noConfusion h
  | arr xs => exact Except.noConfusion h
  | obj fs => exact Except.noConfusion h

theorem decodeU32_ok_lt {field : String} {j : Json} {n : Nat}
    (h : decodeU32 field j = .ok n) : n < 2 ^ 32 := by
  cases j with
  | num q =>
    simp only [decodeU32] at h
    split_ifs at h with h1 h2
    all_goals first
    | exact Except.noConfusion h
    | (injection h with h3
       subst h3
       have hlt := h2.2
       have e1 : (2 : Int) ^ 32 = 4294967296 := by norm_num
       have e2 : (2 : Nat) ^ 32 = 4294967296 := by norm_num
       rw [e2]
       rw [e1] at hlt
       omega)
  | null => exact Except.noConfusion h
  | bool b => exact Except.noConfusion h
  | str s => exact Except.noConfusion h
  | arr xs => exact Except.noConfusion h
  | obj fs => exact Except.noConfusion h

theorem pure_some {α : Type} {a b : α} (h : (pure a : Option α) = some b) :
    a = b :=
  Option.some.inj h

theorem option_map_some {α β : Type} {f : α → β} {x : Option α} {b : β}
    (h : x.map f = some b) : ∃ a, x = some a ∧ b = f a := by
  cases x <;> simp_all

/-! ## Content preservation of the conversion, leaf upward -/

theorem cow_convert_content {c : CowStr} {buf : Str} {y : Str}
    (h : c.convert_to_owned buf = some y) : y.content = c.content := by
  cases c with
  | borrowed r =>
    have hc' : buf.slice_ref r = some y := h
    simp only [Str.slice_ref] at hc'
    split at hc'
    · injection hc' with h2
      subst h2
      rfl
    · exact Option.noConfusion hc'
  | owned s =>
    injection h with h2
    subst h2
    show Str.content ⟨s, 0, s.content.length⟩ = s.content
    simp [Str.content]

theorem convertVec_content {α β γ : Type} {f : α → Option β} (g : β → γ)
    (g' : α → γ) (hfg : ∀ a b, f a = some b → g b = g' a) :
    ∀ {xs : List α} {ys : List β},
      convertVec f xs = some ys → ys.map g = xs.map g' := by
  intro xs
  induction xs with
  | nil =>
    intro ys h
    injection h with h2
    subst h2
    rfl
  | cons x xs ih =>
    intro ys h
    unfold convertVec at h
    obtain ⟨y, hy, h⟩ := bind_some_elim h
    obtain ⟨ys', hys, h⟩ := bind_some_elim h
    obtain rfl := pure_some h
    simp [hfg _ _ hy, ih hys]

theorem convertOpt_content {α β γ : Type} {f : α → Option β} (g : β → γ)
    (g' : α → γ) (hfg : ∀ a b, f a = some b → g b = g' a)
    {x : Option α} {y : Option β} (h : convertOpt f x = some y) :
    y.map g = x.map g' := by
  cases x with
  | none =>
    injection h with h2
    subst h2
    rfl
  | some a =>
    obtain ⟨b, hb, rfl⟩ := option_map_some h
    simp [hfg _ _ hb]

theorem urlCitation_convert_content {x : UrlCitation CowStr} {buf : Str}
    {y : UrlCitation Str} (h : x.convert_to_owned buf = some y) :
    y.mapLeaf Str.content = x.mapLeaf CowStr.content := by
  unfold UrlCitation.convert_to_owned at h
  obtain ⟨u, hu, h⟩ := bind_some_elim h
  obtain ⟨t, ht, h⟩ := bind_some_elim h
  obtain rfl := pure_some h
  simp [UrlCitation.mapLeaf, cow_convert_content hu, cow_convert_content ht]

theorem annotation_convert_content {x : Annotation CowStr} {buf : Str}
    {y : Annotation Str} (h : x.convert_to_owned buf = some y) :
    y.mapLeaf Str.content = x.mapLeaf CowStr.content := by
  cases x with
  | UrlCitation c =>
    obtain ⟨c', hc, rfl⟩ := option_map_some h
    simp [ Annotation.mapLeaf, urlCitation_convert_content hc]

theorem outputTextPart_convert_content {x : OutputTextPart CowStr}
    {buf : Str} {y : OutputTextPart Str}
    (h : x.convert_to_owned buf = some y) :
    y.mapLeaf Str.content = x.mapLeaf CowStr.content := by
  unfold OutputTextPart.convert_to_owned at h
  obtain ⟨t, ht, h⟩ := bind_some_elim h
  obtain ⟨anns, hanns, h⟩ := bind_some_elim h
  obtain rfl := pure_some h
  simp [OutputTextPart.mapLeaf, cow_convert_content ht,
    convertVec_content _ _ (fun a b hab => annotation_convert_content hab)
      hanns]

theorem reasoningTextPart_convert_content {x : ReasoningTextPart CowStr}
    {buf : Str} {y : ReasoningTextPart Str}
    (h : x.convert_to_owned buf = some y) :
    y.mapLeaf Str.content = x.mapLeaf CowStr.content := by
  unfold ReasoningTextPart.convert_to_owned at h
  obtain ⟨t, ht, h⟩ := bind_some_elim h
  obtain rfl := pure_some h
  simp [ReasoningTextPart.mapLeaf, cow_convert_content ht]

theorem summaryTextPart_convert_content {x : SummaryTextPart CowStr}
    {buf : Str} {y : SummaryTextPart Str}
    (h : x.convert_to_owned buf = some y) :
    y.mapLeaf Str.content = x.mapLeaf CowStr.content := by
  unfold SummaryTextPart.convert_to_owned at h
  obtain ⟨t, ht, h⟩ := bind_some_elim h
  obtain rfl := pure_some h
  simp [SummaryTextPart.mapLeaf, cow_convert_content ht]

theorem summaryContent_convert_content {x : SummaryContent CowStr}
    {buf : Str} {y : SummaryContent Str}
    (h : x.convert_to_owned buf = some y) :
    y.mapLeaf Str.content = x.mapLeaf CowStr.content := by
  cases x with
  | SummaryText p =>
    obtain ⟨p', hp, rfl⟩ := option_map_some h
    simp [SummaryContent.mapLeaf, summaryTextPart_convert_content hp]

theorem summaryPart_convert_content {x : SummaryPart CowStr} {buf : Str}
    {y : SummaryPart Str} (h : x.convert_to_owned buf = some y) :
    y.mapLeaf Str.content = x.mapLeaf CowStr.content := by
  unfold SummaryPart.convert_to_owned at h
  obtain ⟨c, hc, h⟩ := bind_some_elim h
  obtain rfl := pure_some h
  simp [SummaryPart.mapLeaf, summaryContent_convert_content hc]

theorem contentPart_convert_content {x : ContentPart CowStr} {buf : Str}
    {y : ContentPart Str} (h : x.convert_to_owned buf = some y) :
    y.mapLeaf Str.content = x.mapLeaf CowStr.content := by
  cases x with
  | OutputText p =>
    obtain ⟨p', hp, rfl⟩ := option_map_some h
    simp [ContentPart.mapLeaf, outputTextPart_convert_content hp]
  | ReasoningText p =>
    obtain ⟨p', hp, rfl⟩ := option_map_some h
    simp [ContentPart.mapLeaf, reasoningTextPart_convert_content hp]
  | SummaryText p =>
    obtain ⟨p', hp, rfl⟩ := option_map_some h
    simp [ContentPart.mapLeaf, summaryTextPart_convert_content hp]

theorem messageItem_convert_content {x : MessageItem CowStr} {buf : Str}
    {y : MessageItem Str} (h : x.convert_to_owned buf = some y) :
    y.mapLeaf Str.content = x.mapLeaf CowStr.content := by
  unfold MessageItem.convert_to_owned at h
  obtain ⟨i, hi, h⟩ := bind_some_elim h
  obtain ⟨cs, hcs, h⟩ := bind_some_elim h
  obtain rfl := pure_some h
  simp [MessageItem.mapLeaf, cow_convert_content hi,
    convertVec_content _ _ (fun a b hab => contentPart_convert_content hab)
      hcs]

theorem reasoningItem_convert_content {x : ReasoningItem CowStr} {buf : Str}
    {y : ReasoningItem Str} (h : x.convert_to_owned buf = some y) :
    y.mapLeaf Str.content = x.mapLeaf CowStr.content := by
  unfold ReasoningItem.convert_to_owned at h
  obtain ⟨i, hi, h⟩ := bind_some_elim h
  obtain ⟨ss, hss, h⟩ := bind_some_elim h
  obtain ⟨ec, hec, h⟩ := bind_some_elim h
  obtain rfl := pure_some h
  simp [ReasoningItem.mapLeaf, cow_convert_content hi,
    convertVec_content _ _ (fun a b hab => summaryPart_convert_content hab)
      hss,
    convertOpt_content _ _ (fun a b hab => cow_convert_content hab) hec]

theorem functionCallItem_convert_content {x : FunctionCallItem CowStr}
    {buf : Str} {y : FunctionCallItem Str}
    (h : x.convert_to_owned buf = some y) :
    y.mapLeaf Str.content = x.mapLeaf CowStr.content := by
  unfold FunctionCallItem.convert_to_owned at h
  obtain ⟨c, hc, h⟩ := bind_some_elim h
  obtain ⟨n, hn, h⟩ := bind_some_elim h
  obtain ⟨a, ha, h⟩ := bind_some_elim h
  obtain rfl := pure_some h
  simp [FunctionCallItem.mapLeaf, cow_convert_content hc,
    cow_convert_content hn, cow_convert_content ha]

theorem outputItem_convert_content {x : OutputItem CowStr} {buf : Str}
    {y : OutputItem Str} (h : x.convert_to_owned buf = some y) :
    y.mapLeaf Str.content = x.mapLeaf CowStr.content := by
  cases x with
  | Message i =>
    obtain ⟨i', hi, rfl⟩ := option_map_some h
    simp [OutputItem.mapLeaf, messageItem_convert_content hi]
  | Reasoning i =>
    obtain ⟨i', hi, rfl⟩ := option_map_some h
    simp [OutputItem.mapLeaf, reasoningItem_convert_content hi]
  | FunctionCall i =>
    obtain ⟨i', hi, rfl⟩ := option_map_some h
    simp [OutputItem.mapLeaf, functionCallItem_convert_content hi]

theorem outputItemAddedData_convert_content
    {x : OutputItemAddedData CowStr} {buf : Str}
    {y : OutputItemAddedData Str} (h : x.convert_to_owned buf = some y) :
    y.mapLeaf Str.content = x.mapLeaf CowStr.content := by
  unfold OutputItemAddedData.convert_to_owned at h
  obtain ⟨i, hi, h⟩ := bind_some_elim h
  obtain rfl := pure_some h
  simp [OutputItemAddedData.mapLeaf, outputItem_convert_content hi]

theorem outputItemDoneData_convert_content
    {x : OutputItemDoneData CowStr} {buf : Str}
    {y : OutputItemDoneData Str} (h : x.convert_to_owned buf = some y) :
    y.mapLeaf Str.content = x.mapLeaf CowStr.content := by
  unfold OutputItemDoneData.convert_to_owned at h
  obtain ⟨i, hi, h⟩ := bind_some_elim h
  obtain rfl := pure_some h
  simp [OutputItemDoneData.mapLeaf, outputItem_convert_content hi]

theorem contentPartAddedData_convert_content
    {x : ContentPartAddedData CowStr} {buf : Str}
    {y : ContentPartAddedData Str} (h : x.convert_to_owned buf = some y) :
    y.mapLeaf Str.content = x.mapLeaf CowStr.content := by
  unfold ContentPartAddedData.convert_to_owned at h
  obtain ⟨i, hi, h⟩ := bind_some_elim h
  obtain ⟨p, hp, h⟩ := bind_some_elim h
  obtain rfl := pure_some h
  simp [ContentPartAddedData.mapLeaf, cow_convert_content hi,
    contentPart_convert_content hp]

theorem contentPartDoneData_convert_content
    {x : ContentPartDoneData CowStr} {buf : Str}
    {y : ContentPartDoneData Str} (h : x.convert_to_owned buf = some y) :
    y.mapLeaf Str.content = x.mapLeaf CowStr.content := by
  unfold ContentPartDoneData.convert_to_owned at h
  obtain ⟨i, hi, h⟩ := bind_some_elim h
  obtain ⟨p, hp, h⟩ := bind_some_elim h
  obtain rfl := pure_some h
  simp [ContentPartDoneData.mapLeaf, cow_convert_content hi,
    contentPart_convert_content hp]

theorem outputTextDeltaData_convert_content
    {x : OutputTextDeltaData CowStr} {buf : Str}
    {y : OutputTextDeltaData Str} (h : x.convert_to_owned buf = some y) :
    y.mapLeaf Str.content = x.mapLeaf CowStr.content := by
  unfold OutputTextDeltaData.convert_to_owned at h
  obtain ⟨i, hi, h⟩ := bind_some_elim h
  obtain ⟨d, hd, h⟩ := bind_some_elim h
  obtain rfl := pure_some h
  simp [OutputTextDeltaData.mapLeaf, cow_convert_content hi,
    cow_convert_content hd]

theorem outputTextDoneData_convert_content
    {x : OutputTextDoneData CowStr} {buf : Str}
    {y : OutputTextDoneData Str} (h : x.convert_to_owned buf = some y) :
    y.mapLeaf Str.content = x.mapLeaf CowStr.content := by
  unfold OutputTextDoneData.convert_to_owned at h
  obtain ⟨i, hi, h⟩ := bind_some_elim h
  obtain ⟨t, ht, h⟩ := bind_some_elim h
  obtain rfl := pure_some h
  simp [OutputTextDoneData.mapLeaf, cow_convert_content hi,
    cow_convert_content ht]

theorem reasoningTextDeltaData_convert_content
    {x : ReasoningTextDeltaData CowStr} {buf : Str}
    {y : ReasoningTextDeltaData Str} (h : x.convert_to_owned buf = some y) :
    y.mapLeaf Str.content = x.mapLeaf CowStr.content := by
  unfold ReasoningTextDeltaData.convert_to_owned at h
  obtain ⟨i, hi, h⟩ := bind_some_elim h
  obtain ⟨d, hd, h⟩ := bind_some_elim h
  obtain rfl := pure_some h
  simp [ReasoningTextDeltaData.mapLeaf, cow_convert_content hi,
    cow_convert_content hd]

theorem reasoningTextDoneData_convert_content
    {x : ReasoningTextDoneData CowStr} {buf : Str}
    {y : ReasoningTextDoneData Str} (h : x.convert_to_owned buf = some y) :
    y.mapLeaf Str.content = x.mapLeaf CowStr.content := by
  unfold ReasoningTextDoneData.convert_to_owned at h
  obtain ⟨i, hi, h⟩ := bind_some_elim h
  obtain ⟨t, ht, h⟩ := bind_some_elim h
  obtain rfl := pure_some h
  simp [ReasoningTextDoneData.mapLeaf, cow_convert_content hi,
    cow_convert_content ht]

theorem reasoningSummaryPartAddedData_convert_content
    {x : ReasoningSummaryPartAddedData CowStr} {buf : Str}
    {y : ReasoningSummaryPartAddedData Str}
    (h : x.convert_to_owned buf = some y) :
    y.mapLeaf Str.content = x.mapLeaf CowStr.content := by
  unfold ReasoningSummaryPartAddedData.convert_to_owned at h
  obtain ⟨i, hi, h⟩ := bind_some_elim h
  obtain ⟨p, hp, h⟩ := bind_some_elim h
  obtain rfl := pure_some h
  simp [ReasoningSummaryPartAddedData.mapLeaf, cow_convert_content hi,
    summaryPart_convert_content hp]

theorem reasoningSummaryTextDeltaData_convert_content
    {x : ReasoningSummaryTextDeltaData CowStr} {buf : Str}
    {y : ReasoningSummaryTextDeltaData Str}
    (h : x.convert_to_owned buf = some y) :
    y.mapLeaf Str.content = x.mapLeaf CowStr.content := by
  unfold ReasoningSummaryTextDeltaData.convert_to_owned at h
  obtain ⟨i, hi, h⟩ := bind_some_elim h
  obtain ⟨d, hd, h⟩ := bind_some_elim h
  obtain rfl := pure_some h
  simp [ReasoningSummaryTextDeltaData.mapLeaf, cow_convert_content hi,
    cow_convert_content hd]

theorem reasoningSummaryTextDoneData_convert_content
    {x : ReasoningSummaryTextDoneData CowStr} {buf : Str}
    {y : ReasoningSummaryTextDoneData Str}
    (h : x.convert_to_owned buf = some y) :
    y.mapLeaf Str.content = x.mapLeaf CowStr.content := by
  unfold ReasoningSummaryTextDoneData.convert_to_owned at h
  obtain ⟨i, hi, h⟩ := bind_some_elim h
  obtain ⟨t, ht, h⟩ := bind_some_elim h
  obtain rfl := pure_some h
  simp [ReasoningSummaryTextDoneData.mapLeaf, cow_convert_content hi,
    cow_convert_content ht]

theorem reasoningSummaryPartDoneData_convert_content
    {x : ReasoningSummaryPartDoneData CowStr} {buf : Str}
    {y : ReasoningSummaryPartDoneData Str}
    (h : x.convert_to_owned buf = some y) :
    y.mapLeaf Str.content = x.mapLeaf CowStr.content := by
  unfold ReasoningSummaryPartDoneData.convert_to_owned at h
  obtain ⟨i, hi, h⟩ := bind_some_elim h
  obtain ⟨p, hp, h⟩ := bind_some_elim h
  obtain rfl := pure_some h
  simp [ReasoningSummaryPartDoneData.mapLeaf, cow_convert_content hi,
    summaryPart_convert_content hp]

theorem functionCallArgumentsDeltaData_convert_content
    {x : FunctionCallArgumentsDeltaData CowStr} {buf : Str}
    {y : FunctionCallArgumentsDeltaData Str}
    (h : x.convert_to_owned buf = some y) :
    y.mapLeaf Str.content = x.mapLeaf CowStr.content := by
  unfold FunctionCallArgumentsDeltaData.convert_to_owned at h
  obtain ⟨i, hi, h⟩ := bind_some_elim h
  obtain ⟨d, hd, h⟩ := bind_some_elim h
  obtain rfl := pure_some h
  simp [FunctionCallArgumentsDeltaData.mapLeaf, cow_convert_content hi,
    cow_convert_content hd]

theorem functionCallArgumentsDoneData_convert_content
    {x : FunctionCallArgumentsDoneData CowStr} {buf : Str}
    {y : FunctionCallArgumentsDoneData Str}
    (h : x.convert_to_owned buf = some y) :
    y.mapLeaf Str.content = x.mapLeaf CowStr.content := by
  unfold FunctionCallArgumentsDoneData.convert_to_owned at h
  obtain ⟨i, hi, h⟩ := bind_some_elim h
  obtain ⟨n, hn, h⟩ := bind_some_elim h
  obtain ⟨a, ha, h⟩ := bind_some_elim h
  obtain rfl := pure_some h
  simp [FunctionCallArgumentsDoneData.mapLeaf, cow_convert_content hi,
    cow_convert_content hn, cow_convert_content ha]

theorem annotationAddedData_convert_content
    {x : AnnotationAddedData CowStr} {buf : Str}
    {y : AnnotationAddedData Str} (h : x.convert_to_owned buf = some y) :
    y.mapLeaf Str.content = x.mapLeaf CowStr.content := by
  unfold AnnotationAddedData.convert_to_owned at h
  obtain ⟨i, hi, h⟩ := bind_some_elim h
  obtain ⟨a, ha, h⟩ := bind_some_elim h
  obtain rfl := pure_some h
  simp [AnnotationAddedData.mapLeaf, cow_convert_content hi,
    annotation_convert_content ha]

/-! ## Totality of the conversion when every borrow is within the buffer -/

theorem cow_convert_total {c : CowStr} {buf : Str} (h : CowStr.okFor buf c) :
    ∃ y, c.convert_to_owned buf = some y := by
  cases c with
  | borrowed r =>
    have h' : r.alloc = buf.alloc ∧ buf.start ≤ r.start ∧
        r.start + r.len ≤ buf.start + buf.len := h
    refine ⟨⟨r.alloc, r.start, r.len⟩, ?_⟩
    show buf.slice_ref r = _
    simp only [Str.slice_ref]
    rw [if_pos h']
  | owned s => exact ⟨_, rfl⟩

theorem convertVec_total {α β : Type} {f : α → Option β} :
    ∀ {xs : List α}, (∀ a ∈ xs, ∃ y, f a = some y) →
      ∃ ys, convertVec f xs = some ys := by
  intro xs
  induction xs with
  | nil => exact fun _ => ⟨[], rfl⟩
  | cons x xs ih =>
    intro hall
    obtain ⟨y, hy⟩ := hall x (List.mem_cons_self x xs)
    obtain ⟨ys, hys⟩ := ih fun a ha => hall a (List.mem_cons_of_mem x ha)
    exact ⟨y :: ys, by simp [convertVec, hy, hys]⟩

theorem convertOpt_total {α β : Type} {f : α → Option β} {x : Option α}
    (h : ∀ a ∈ x, ∃ y, f a = some y) : ∃ y, convertOpt f x = some y := by
  cases x with
  | none => exact ⟨none, rfl⟩
  | some a =>
    obtain ⟨y, hy⟩ := h a rfl
    exact ⟨some y, by simp [convertOpt, hy]⟩

theorem urlCitation_convert_total {x : UrlCitation CowStr} {buf : Str}
    (h : ∀ c ∈ x.leaves, CowStr.okFor buf c) :
    ∃ y, x.convert_to_owned buf = some y := by
  obtain ⟨u, hu⟩ := cow_convert_total (h x.url (by simp [UrlCitation.leaves]))
  obtain ⟨t, ht⟩ :=
    cow_convert_total (h x.title (by simp [UrlCitation.leaves]))
  exact ⟨⟨u, t, x.start_index, x.end_index⟩, by
    unfold UrlCitation.convert_to_owned
    simp [hu, ht]⟩

theorem annotation_convert_total {x : Annotation CowStr} {buf : Str}
    (h : ∀ c ∈ x.leaves, CowStr.okFor buf c) :
    ∃ y, x.convert_to_owned buf = some y := by
  cases x with
  | UrlCitation c =>
    obtain ⟨c', hc⟩ := urlCitation_convert_total fun l hl => h l hl
    exact ⟨.UrlCitation c', by simp [ Annotation.convert_to_owned, hc]⟩

theorem outputTextPart_convert_total {x : OutputTextPart CowStr} {buf : Str}
    (h : ∀ c ∈ x.leaves, CowStr.okFor buf c) :
    ∃ y, x.convert_to_owned buf = some y := by
  obtain ⟨t, ht⟩ :=
    cow_convert_total (h x.text (by simp [OutputTextPart.leaves]))
  obtain ⟨anns, hanns⟩ :=
    convertVec_total (f := fun a : Annotation CowStr => a.convert_to_owned buf)
      (fun a ha => annotation_convert_total fun l hl => h l (by
        simp only [OutputTextPart.leaves, List.mem_cons, List.mem_flatMap]
        exact Or.inr ⟨a, ha, hl⟩))
  exact ⟨⟨t, anns⟩, by
    unfold OutputTextPart.convert_to_owned
    simp [ht, hanns]⟩

theorem reasoningTextPart_convert_total {x : ReasoningTextPart CowStr}
    {buf : Str} (h : ∀ c ∈ x.leaves, CowStr.okFor buf c) :
    ∃ y, x.convert_to_owned buf = some y := by
  obtain ⟨t, ht⟩ :=
    cow_convert_total (h x.text (by simp [ReasoningTextPart.leaves]))
  exact ⟨⟨t⟩, by
    unfold ReasoningTextPart.convert_to_owned
    simp [ht]⟩

theorem summaryTextPart_convert_total {x : SummaryTextPart CowStr}
    {buf : Str} (h : ∀ c ∈ x.leaves, CowStr.okFor buf c) :
    ∃ y, x.convert_to_owned buf = some y := by
  obtain ⟨t, ht⟩ :=
    cow_convert_total (h x.text (by simp [SummaryTextPart.leaves]))
  exact ⟨⟨t⟩, by
    unfold SummaryTextPart.convert_to_owned
    simp [ht]⟩

theorem summaryContent_convert_total {x : SummaryContent CowStr} {buf : Str}
    (h : ∀ c ∈ x.leaves, CowStr.okFor buf c) :
    ∃ y, x.convert_to_owned buf = some y := by
  cases x with
  | SummaryText p =>
    obtain ⟨p', hp⟩ := summaryTextPart_convert_total fun l hl => h l hl
    exact ⟨.SummaryText p', by simp [SummaryContent.convert_to_owned, hp]⟩

theorem summaryPart_convert_total {x : SummaryPart CowStr} {buf : Str}
    (h : ∀ c ∈ x.leaves, CowStr.okFor buf c) :
    ∃ y, x.convert_to_owned buf = some y := by
  obtain ⟨c', hc⟩ := summaryContent_convert_total fun l hl => h l hl
  exact ⟨⟨c'⟩, by
    unfold SummaryPart.convert_to_owned
    simp [hc]⟩

theorem contentPart_convert_total {x : ContentPart CowStr} {buf : Str}
    (h : ∀ c ∈ x.leaves, CowStr.okFor buf c) :
    ∃ y, x.convert_to_owned buf = some y := by
  cases x with
  | OutputText p =>
    obtain ⟨p', hp⟩ := outputTextPart_convert_total fun l hl => h l hl
    exact ⟨.OutputText p', by simp [ContentPart.convert_to_owned, hp]⟩
  | ReasoningText p =>
    obtain ⟨p', hp⟩ := reasoningTextPart_convert_total fun l hl => h l hl
    exact ⟨.ReasoningText p', by simp [ContentPart.convert_to_owned, hp]⟩
  | SummaryText p =>
    obtain ⟨p', hp⟩ := summaryTextPart_convert_total fun l hl => h l hl
    exact ⟨.SummaryText p', by simp [ContentPart.convert_to_owned, hp]⟩

theorem messageItem_convert_total {x : MessageItem CowStr} {buf : Str}
    (h : ∀ c ∈ x.leaves, CowStr.okFor buf c) :
    ∃ y, x.convert_to_owned buf = some y := by
  obtain ⟨i, hi⟩ := cow_convert_total (h x.id (by simp [MessageItem.leaves]))
  obtain ⟨cs, hcs⟩ :=
    convertVec_total (f := fun c : ContentPart CowStr => c.convert_to_owned buf)
      (fun c hc => contentPart_convert_total fun l hl => h l (by
        simp only [MessageItem.leaves, List.mem_cons, List.mem_flatMap]
        exact Or.inr ⟨c, hc, hl⟩))
  exact ⟨⟨i, x.status, cs⟩, by
    unfold MessageItem.convert_to_owned
    simp [hi, hcs]⟩

theorem reasoningItem_convert_total {x : ReasoningItem CowStr} {buf : Str}
    (h : ∀ c ∈ x.leaves, CowStr.okFor buf c) :
    ∃ y, x.convert_to_owned buf = some y := by
  obtain ⟨i, hi⟩ :=
    cow_convert_total (h x.id (by simp [ReasoningItem.leaves]))
  obtain ⟨ss, hss⟩ :=
    convertVec_total (f := fun s : SummaryPart CowStr => s.convert_to_owned buf)
      (fun s hs => summaryPart_convert_total fun l hl => h l (by
        simp only [ReasoningItem.leaves, List.mem_cons, List.mem_append,
          List.mem_flatMap]
        exact Or.inr (Or.inl ⟨s, hs, hl⟩)))
  obtain ⟨ec, hec⟩ :=
    convertOpt_total (f := fun s : CowStr => s.convert_to_owned buf)
      (fun s hs => cow_convert_total (h s (by
        simp only [ReasoningItem.leaves, List.mem_cons, List.mem_append,
          Option.mem_toList]
        exact Or.inr (Or.inr hs))))
  exact ⟨⟨i, ss, ec⟩, by
    unfold ReasoningItem.convert_to_owned
    simp [hi, hss, hec]⟩

theorem functionCallItem_convert_total {x : FunctionCallItem CowStr}
    {buf : Str} (h : ∀ c ∈ x.leaves, CowStr.okFor buf c) :
    ∃ y, x.convert_to_owned buf = some y := by
  obtain ⟨c, hc⟩ :=
    cow_convert_total (h x.call_id (by simp [FunctionCallItem.leaves]))
  obtain ⟨n, hn⟩ :=
    cow_convert_total (h x.name (by simp [FunctionCallItem.leaves]))
  obtain ⟨a, ha⟩ :=
    cow_convert_total (h x.arguments (by simp [FunctionCallItem.leaves]))
  exact ⟨⟨c, n, a, x.status⟩, by
    unfold FunctionCallItem.convert_to_owned
    simp [hc, hn, ha]⟩

theorem outputItem_convert_total {x : OutputItem CowStr} {buf : Str}
    (h : ∀ c ∈ x.leaves, CowStr.okFor buf c) :
    ∃ y, x.convert_to_owned buf = some y := by
  cases x with
  | Message i =>
    obtain ⟨i', hi⟩ := messageItem_convert_total fun l hl => h l hl
    exact ⟨.Message i', by simp [OutputItem.convert_to_owned, hi]⟩
  | Reasoning i =>
    obtain ⟨i', hi⟩ := reasoningItem_convert_total fun l hl => h l hl
    exact ⟨.Reasoning i', by simp [OutputItem.convert_to_owned, hi]⟩
  | FunctionCall i =>
    obtain ⟨i', hi⟩ := functionCallItem_convert_total fun l hl => h l hl
    exact ⟨.FunctionCall i', by simp [OutputItem.convert_to_owned, hi]⟩

theorem outputItemAddedData_convert_total
    {x : OutputItemAddedData CowStr} {buf : Str}
    (h : ∀ c ∈ x.leaves, CowStr.okFor buf c) :
    ∃ y, x.convert_to_owned buf = some y := by
  obtain ⟨i, hi⟩ := outputItem_convert_total fun l hl => h l hl
  exact ⟨⟨x.output_index, i, x.sequence_number⟩, by
    unfold OutputItemAddedData.convert_to_owned
    simp [hi]⟩

theorem outputItemDoneData_convert_total
    {x : OutputItemDoneData CowStr} {buf : Str}
    (h : ∀ c ∈ x.leaves, CowStr.okFor buf c) :
    ∃ y, x.convert_to_owned buf = some y := by
  obtain ⟨i, hi⟩ := outputItem_convert_total fun l hl => h l hl
  exact ⟨⟨x.output_index, i, x.sequence_number⟩, by
    unfold OutputItemDoneData.convert_to_owned
    simp [hi]⟩

theorem contentPartAddedData_convert_total
    {x : ContentPartAddedData CowStr} {buf : Str}
    (h : ∀ c ∈ x.leaves, CowStr.okFor buf c) :
    ∃ y, x.convert_to_owned buf = some y := by
  obtain ⟨i, hi⟩ :=
    cow_convert_total (h x.item_id (by simp [ContentPartAddedData.leaves]))
  obtain ⟨p, hp⟩ := contentPart_convert_total fun l hl => h l (by
    simp only [ContentPartAddedData.leaves, List.mem_cons]
    exact Or.inr hl)
  exact ⟨⟨i, x.output_index, x.content_index, p, x.sequence_number⟩, by
    unfold ContentPartAddedData.convert_to_owned
    simp [hi, hp]⟩

theorem contentPartDoneData_convert_total
    {x : ContentPartDoneData CowStr} {buf : Str}
    (h : ∀ c ∈ x.leaves, CowStr.okFor buf c) :
    ∃ y, x.convert_to_owned buf = some y := by
  obtain ⟨i, hi⟩ :=
    cow_convert_total (h x.item_id (by simp [ContentPartDoneData.leaves]))
  obtain ⟨p, hp⟩ := contentPart_convert_total fun l hl => h l (by
    simp only [ContentPartDoneData.leaves, List.mem_cons]
    exact Or.inr hl)
  exact ⟨⟨i, x.output_index, x.content_index, p, x.sequence_number⟩, by
    unfold ContentPartDoneData.convert_to_owned
    simp [hi, hp]⟩

theorem outputTextDeltaData_convert_total
    {x : OutputTextDeltaData CowStr} {buf : Str}
    (h : ∀ c ∈ x.leaves, CowStr.okFor buf c) :
    ∃ y, x.convert_to_owned buf = some y := by
  obtain ⟨i, hi⟩ :=
    cow_convert_total (h x.item_id (by simp [OutputTextDeltaData.leaves]))
  obtain ⟨d, hd⟩ :=
    cow_convert_total (h x.delta (by simp [OutputTextDeltaData.leaves]))
  exact ⟨⟨x.output_index, i, x.content_index, d, x.sequence_number⟩, by
    unfold OutputTextDeltaData.convert_to_owned
    simp [hi, hd]⟩

theorem outputTextDoneData_convert_total
    {x : OutputTextDoneData CowStr} {buf : Str}
    (h : ∀ c ∈ x.leaves, CowStr.okFor buf c) :
    ∃ y, x.convert_to_owned buf = some y := by
  obtain ⟨i, hi⟩ :=
    cow_convert_total (h x.item_id (by simp [OutputTextDoneData.leaves]))
  obtain ⟨t, ht⟩ :=
    cow_convert_total (h x.text (by simp [OutputTextDoneData.leaves]))
  exact ⟨⟨i, x.output_index, x.content_index, t, x.sequence_number⟩, by
    unfold OutputTextDoneData.convert_to_owned
    simp [hi, ht]⟩

theorem reasoningTextDeltaData_convert_total
    {x : ReasoningTextDeltaData CowStr} {buf : Str}
    (h : ∀ c ∈ x.leaves, CowStr.okFor buf c) :
    ∃ y, x.convert_to_owned buf = some y := by
  obtain ⟨i, hi⟩ :=
    cow_convert_total (h x.item_id (by simp [ReasoningTextDeltaData.leaves]))
  obtain ⟨d, hd⟩ :=
    cow_convert_total (h x.delta (by simp [ReasoningTextDeltaData.leaves]))
  exact ⟨⟨x.output_index, i, x.content_index, d, x.sequence_number⟩, by
    unfold ReasoningTextDeltaData.convert_to_owned
    simp [hi, hd]⟩

theorem reasoningTextDoneData_convert_total
    {x : ReasoningTextDoneData CowStr} {buf : Str}
    (h : ∀ c ∈ x.leaves, CowStr.okFor buf c) :
    ∃ y, x.convert_to_owned buf = some y := by
  obtain ⟨i, hi⟩ :=
    cow_convert_total (h x.item_id (by simp [ReasoningTextDoneData.leaves]))
  obtain ⟨t, ht⟩ :=
    cow_convert_total (h x.text (by simp [ReasoningTextDoneData.leaves]))
  exact ⟨⟨x.output_index, i, x.content_index, t, x.sequence_number⟩, by
    unfold ReasoningTextDoneData.convert_to_owned
    simp [hi, ht]⟩

theorem reasoningSummaryPartAddedData_convert_total
    {x : ReasoningSummaryPartAddedData CowStr} {buf : Str}
    (h : ∀ c ∈ x.leaves, CowStr.okFor buf c) :
    ∃ y, x.convert_to_owned buf = some y := by
  obtain ⟨i, hi⟩ := cow_convert_total
    (h x.item_id (by simp [ReasoningSummaryPartAddedData.leaves]))
  obtain ⟨p, hp⟩ := summaryPart_convert_total fun l hl => h l (by
    simp only [ReasoningSummaryPartAddedData.leaves, List.mem_cons]
    exact Or.inr hl)
  exact ⟨⟨x.output_index, i, x.summary_index, p, x.sequence_number⟩, by
    unfold ReasoningSummaryPartAddedData.convert_to_owned
    simp [hi, hp]⟩

theorem reasoningSummaryTextDeltaData_convert_total
    {x : ReasoningSummaryTextDeltaData CowStr} {buf : Str}
    (h : ∀ c ∈ x.leaves, CowStr.okFor buf c) :
    ∃ y, x.convert_to_owned buf = some y := by
  obtain ⟨i, hi⟩ := cow_convert_total
    (h x.item_id (by simp [ReasoningSummaryTextDeltaData.leaves]))
  obtain ⟨d, hd⟩ := cow_convert_total
    (h x.delta (by simp [ReasoningSummaryTextDeltaData.leaves]))
  exact ⟨⟨i, x.output_index, x.summary_index, d, x.sequence_number⟩, by
    unfold ReasoningSummaryTextDeltaData.convert_to_owned
    simp [hi, hd]⟩

theorem reasoningSummaryTextDoneData_convert_total
    {x : ReasoningSummaryTextDoneData CowStr} {buf : Str}
    (h : ∀ c ∈ x.leaves, CowStr.okFor buf c) :
    ∃ y, x.convert_to_owned buf = some y := by
  obtain ⟨i, hi⟩ := cow_convert_total
    (h x.item_id (by simp [ReasoningSummaryTextDoneData.leaves]))
  obtain ⟨t, ht⟩ := cow_convert_total
    (h x.text (by simp [ReasoningSummaryTextDoneData.leaves]))
  exact ⟨⟨x.output_index, i, x.summary_index, t, x.sequence_number⟩, by
    unfold ReasoningSummaryTextDoneData.convert_to_owned
    simp [hi, ht]⟩

theorem reasoningSummaryPartDoneData_convert_total
    {x : ReasoningSummaryPartDoneData CowStr} {buf : Str}
    (h : ∀ c ∈ x.leaves, CowStr.okFor buf c) :
    ∃ y, x.convert_to_owned buf = some y := by
  obtain ⟨i, hi⟩ := cow_convert_total
    (h x.item_id (by simp [ReasoningSummaryPartDoneData.leaves]))
  obtain ⟨p, hp⟩ := summaryPart_convert_total fun l hl => h l (by
    simp only [ReasoningSummaryPartDoneData.leaves, List.mem_cons]
    exact Or.inr hl)
  exact ⟨⟨x.output_index, i, x.summary_index, p, x.sequence_number⟩, by
    unfold ReasoningSummaryPartDoneData.convert_to_owned
    simp [hi, hp]⟩

theorem functionCallArgumentsDeltaData_convert_total
    {x : FunctionCallArgumentsDeltaData CowStr} {buf : Str}
    (h : ∀ c ∈ x.leaves, CowStr.okFor buf c) :
    ∃ y, x.convert_to_owned buf = some y := by
  obtain ⟨i, hi⟩ := cow_convert_total
    (h x.item_id (by simp [FunctionCallArgumentsDeltaData.leaves]))
  obtain ⟨d, hd⟩ := cow_convert_total
    (h x.delta (by simp [FunctionCallArgumentsDeltaData.leaves]))
  exact ⟨⟨i, x.output_index, d, x.sequence_number⟩, by
    unfold FunctionCallArgumentsDeltaData.convert_to_owned
    simp [hi, hd]⟩

theorem functionCallArgumentsDoneData_convert_total
    {x : FunctionCallArgumentsDoneData CowStr} {buf : Str}
    (h : ∀ c ∈ x.leaves, CowStr.okFor buf c) :
    ∃ y, x.convert_to_owned buf = some y := by
  obtain ⟨i, hi⟩ := cow_convert_total
    (h x.item_id (by simp [FunctionCallArgumentsDoneData.leaves]))
  obtain ⟨n, hn⟩ := cow_convert_total
    (h x.name (by simp [FunctionCallArgumentsDoneData.leaves]))
  obtain ⟨a, ha⟩ := cow_convert_total
    (h x.arguments (by simp [FunctionCallArgumentsDoneData.leaves]))
  exact ⟨⟨i, x.output_index, n, a, x.sequence_number⟩, by
    unfold FunctionCallArgumentsDoneData.convert_to_owned
    simp [hi, hn, ha]⟩

theorem annotationAddedData_convert_total
    {x : AnnotationAddedData CowStr} {buf : Str}
    (h : ∀ c ∈ x.leaves, CowStr.okFor buf c) :
    ∃ y, x.convert_to_owned buf = some y := by
  obtain ⟨i, hi⟩ :=
    cow_convert_total (h x.item_id (by simp [AnnotationAddedData.leaves]))
  obtain ⟨a, ha⟩ := annotation_convert_total fun l hl => h l (by
    simp only [AnnotationAddedData.leaves, List.mem_cons]
    exact Or.inr hl)
  exact ⟨⟨x.output_index, i, x.content_index, x.sequence_number,
      x.annotation_index, a⟩, by
    unfold AnnotationAddedData.convert_to_owned
    simp [hi, ha]⟩

/-! ## Claim theorems: the stream adapter state machine -/

/-- C1: in the `Terminated` state every pull returns "no more items"
immediately — the same answer whatever the framer would have said (the
source returns before polling it) and whatever the decoder is, with no
event, no error, and the state still `Terminated` (the state is
absorbing). -/
theorem terminated_is_absorbing (E : Type)
    (dc : Str → Except DecodeError (StreamEvent Str)) (framer : FramerPoll E) :
    OAICompatResponsesStream.poll_next dc .Terminated framer =
      (.Terminated, .ready none) :=
  rfl

/-- C2: an `Active` pull whose record's payload is exactly `[DONE]`
transitions to `Terminated` and returns "no more items", for every
decoder `dc` (the decoder is never consulted, i.e. the payload is not
parsed as JSON); a payload not exactly `[DONE]` is never treated as the
sentinel: the state stays `Active` and the record goes to the
decode-and-convert path. -/
theorem sentinel_exact_match (E : Type)
    (dc : Str → Except DecodeError (StreamEvent Str)) (data : Str) :
    (data.content = doneSentinel →
      OAICompatResponsesStream.poll_next (E := E) dc .Active
          (.ready (some (.ok data))) =
        (.Terminated, .ready none)) ∧
    (data.content ≠ doneSentinel →
      OAICompatResponsesStream.poll_next (E := E) dc .Active
          (.ready (some (.ok data))) =
        (.Active, .ready (some (match dc data with
          | .ok ev => .ok ev
          | .error e => .error (.Deserialize e))))) := by
  constructor <;> intro h <;>
    simp [OAICompatResponsesStream.poll_next, h]

/-- C4: every failing pull surfaces one of the exactly three error kinds
— `Transport` (the source's error, carried verbatim by
`ofEventStreamError`), `Utf8Error` (invalid UTF-8) or `Deserialize` (the
JSON diagnostic) — and leaves the state unchanged, so the consumer may
keep pulling. -/
theorem error_kinds_and_state_unchanged (E : Type)
    (dc : Str → Except DecodeError (StreamEvent Str))
    (s : OAICompatResponsesStreamState) (framer : FramerPoll E)
    (e : OAICompatResponsesStreamError E)
    (h : (OAICompatResponsesStream.poll_next dc s framer).2 =
      .ready (some (.error e))) :
    (OAICompatResponsesStream.poll_next dc s framer).1 = s ∧
    ((∃ t, e = .Transport t) ∨ (∃ u, e = .Utf8Error u) ∨
      (∃ d, e = .Deserialize d)) := by
  refine ⟨?_, ?_⟩
  · cases s with
    | Terminated => rfl
    | Active =>
      cases framer with
      | pending => rfl
      | ready a =>
        rcases a with _ | (err | data)
        · simp only [OAICompatResponsesStream.poll_next] at h
          injection h with h2
          exact Option.noConfusion h2
        · rfl
        · by_cases hd : data.content = doneSentinel
          · simp only [OAICompatResponsesStream.poll_next] at h
            rw [if_pos hd] at h
            injection h with h2
            exact Option.noConfusion h2
          · simp only [OAICompatResponsesStream.poll_next]
            rw [if_neg hd]
  · cases e with
    | Transport t => exact Or.inl ⟨t, rfl⟩
    | Utf8Error u => exact Or.inr (Or.inl ⟨u, rfl⟩)
    | Deserialize d => exact Or.inr (Or.inr ⟨d, rfl⟩)

/-- Witness for C4: a transport error from the framer, observed at a
concrete input. -/
theorem error_kinds_and_state_unchanged_witness :
    (OAICompatResponsesStream.poll_next (E := Unit) dcFail .Active
        (.ready (some (.error (.Transport ()))))).1 = .Active ∧
    ((∃ t, (OAICompatResponsesStreamError.Transport (E := Unit) ()) =
        .Transport t) ∨
      (∃ u, (OAICompatResponsesStreamError.Transport (E := Unit) ()) =
        .Utf8Error u) ∨
      (∃ d, (OAICompatResponsesStreamError.Transport (E := Unit) ()) =
        .Deserialize d)) :=
  error_kinds_and_state_unchanged Unit dcFail .Active
    (.ready (some (.error (.Transport ())))) (.Transport ()) (by rfl)

/-- C5: from `Active`, the pull transitions to `Terminated` exactly when
the framer yields end-of-input or a record whose payload is the sentinel
(in particular no error of any kind causes the transition), and
end-of-input yields "no more items" with no error. -/
theorem terminate_only_on_eos_or_sentinel (E : Type)
    (dc : Str → Except DecodeError (StreamEvent Str)) (framer : FramerPoll E) :
    ((OAICompatResponsesStream.poll_next dc .Active framer).1 = .Terminated ↔
      (framer = .ready none ∨
        ∃ data, framer = .ready (some (.ok data)) ∧
          data.content = doneSentinel)) ∧
    OAICompatResponsesStream.poll_next (E := E) dc .Active (.ready none) =
      (.Terminated, .ready none) := by
  refine ⟨?_, rfl⟩
  cases framer with
  | pending =>
    refine ⟨fun hcon => ?_, fun hr => ?_⟩
    · exact OAICompatResponsesStreamState.noConfusion hcon
    · rcases hr with h | ⟨d, h, _⟩ <;> exact Poll.noConfusion h
  | ready a =>
    rcases a with _ | (err | data)
    · exact ⟨fun _ => Or.inl rfl, fun _ => rfl⟩
    · refine ⟨fun hcon => ?_, fun hr => ?_⟩
      · exact OAICompatResponsesStreamState.noConfusion hcon
      · rcases hr with h | ⟨d, h, _⟩
        · injection h with h2
          exact Option.noConfusion h2
        · injection h with h2
          injection h2 with h3
          exact Except.noConfusion h3
    · by_cases hd : data.content = doneSentinel
      · refine ⟨fun _ => Or.inr ⟨data, rfl, hd⟩, fun _ => ?_⟩
        show (OAICompatResponsesStream.poll_next dc .Active
          (.ready (some (.ok data)))).1 = .Terminated
        simp only [OAICompatResponsesStream.poll_next]
        rw [if_pos hd]
      · refine ⟨fun hcon => ?_, fun hr => ?_⟩
        · revert hcon
          simp only [OAICompatResponsesStream.poll_next]
          rw [if_neg hd]
          intro hcon
          exact OAICompatResponsesStreamState.noConfusion hcon
        · rcases hr with h | ⟨d, h, hds⟩
          · injection h with h2
            exact Option.noConfusion h2
          · injection h with h2
            injection h2 with h3
            injection h3 with h4
            cases h4
            exact absurd hds hd

/-! ## Claim theorems: the borrowed-to-owned string leaf conversion -/

/-- C7: converting a borrowed string leaf that `slice_ref` accepts yields
a handle into the very same allocation as the backing buffer — in fact
the identical view (same allocation, offset and length), so no byte is
copied; converting an owned leaf yields the handle that takes over the
leaf's own allocation in full, again with no copy. -/
theorem cow_conversion_is_zero_copy :
    (∀ (r : Str) (buf : Str) (h : Str),
      CowStr.convert_to_owned (.borrowed r) buf = some h →
        h.alloc = buf.alloc ∧ h = r) ∧
    (∀ (s : Alloc) (buf : Str),
      CowStr.convert_to_owned (.owned s) buf =
        some ⟨s, 0, s.content.length⟩) := by
  refine ⟨fun r buf h hc => ?_, fun s buf => rfl⟩
  have hc' : buf.slice_ref r = some h := hc
  simp only [Str.slice_ref] at hc'
  split at hc'
  · next hg =>
    injection hc' with h2
    subst h2
    exact ⟨hg.1, rfl⟩
  · exact Option.noConfusion hc'

/-- C10: the three response-lifecycle variants (`response.created`,
`response.in_progress`, `response.completed`) carry non-generic payloads
whose string fields are already independently owned `Str` handles — such
a payload has no borrowed string leaves (its leaf list at the borrowed
representation is empty by typing), and `convert_to_owned` is the
identity on these variants. -/
theorem lifecycle_variants_convert_identically :
    (∀ (d : ResponseCreatedData) (buf : Str),
      StreamEvent.convert_to_owned (.ResponseCreated d) buf =
        some (.ResponseCreated d) ∧
      StreamEvent.leaves (T := CowStr) (.ResponseCreated d) = []) ∧
    (∀ (d : ResponseInProgressData) (buf : Str),
      StreamEvent.convert_to_owned (.ResponseInProgress d) buf =
        some (.ResponseInProgress d) ∧
      StreamEvent.leaves (T := CowStr) (.ResponseInProgress d) = []) ∧
    (∀ (d : ResponseCompletedData) (buf : Str),
      StreamEvent.convert_to_owned (.ResponseCompleted d) buf =
        some (.ResponseCompleted d) ∧
      StreamEvent.leaves (T := CowStr) (.ResponseCompleted d) = []) :=
  ⟨fun d buf => ⟨rfl, rfl⟩, fun d buf => ⟨rfl, rfl⟩, fun d buf => ⟨rfl, rfl⟩⟩

/-! ## Claim theorems: round trip and totality of the conversion -/

/-- C3: whenever `convert_to_owned` completes on a decoded event (in the
borrowed representation) with a backing buffer, the owned event it
produces agrees with the input in every field: erasing both sides to raw
character content (`mapLeaf`) gives identical trees — same variant at
every level, identical string content at every leaf, unchanged numeric
fields, lists kept in order and length, optional fields keeping their
presence. -/
theorem convert_to_owned_preserves_values (e : StreamEvent CowStr)
    (buf : Str) (e' : StreamEvent Str)
    (h : e.convert_to_owned buf = some e') :
    e'.mapLeaf Str.content = e.mapLeaf CowStr.content := by
  cases e with
  | ResponseCreated d =>
    simp only [StreamEvent.convert_to_owned] at h
    obtain ⟨d', hd, rfl⟩ := option_map_some h
    obtain rfl := Option.some.inj hd
    rfl
  | ResponseInProgress d =>
    simp only [StreamEvent.convert_to_owned] at h
    obtain ⟨d', hd, rfl⟩ := option_map_some h
    obtain rfl := Option.some.inj hd
    rfl
  | ResponseCompleted d =>
    simp only [StreamEvent.convert_to_owned] at h
    obtain ⟨d', hd, rfl⟩ := option_map_some h
    obtain rfl := Option.some.inj hd
    rfl
  | ResponseOutputItemAdded d =>
    simp only [StreamEvent.convert_to_owned] at h
    obtain ⟨d', hd, rfl⟩ := option_map_some h
    simp [StreamEvent.mapLeaf, outputItemAddedData_convert_content hd]
  | ResponseContentPartAdded d =>
    simp only [StreamEvent.convert_to_owned] at h
    obtain ⟨d', hd, rfl⟩ := option_map_some h
    simp [StreamEvent.mapLeaf, contentPartAddedData_convert_content hd]
  | ResponseOutputTextDelta d =>
    simp only [StreamEvent.convert_to_owned] at h
    obtain ⟨d', hd, rfl⟩ := option_map_some h
    simp [StreamEvent.mapLeaf, outputTextDeltaData_convert_content hd]
  | ResponseOutputTextAnnotationAdded d =>
    simp only [StreamEvent.convert_to_owned] at h
    obtain ⟨d', hd, rfl⟩ := option_map_some h
    simp [StreamEvent.mapLeaf, annotationAddedData_convert_content hd]
  | ResponseOutputTextDone d =>
    simp only [StreamEvent.convert_to_owned] at h
    obtain ⟨d', hd, rfl⟩ := option_map_some h
    simp [StreamEvent.mapLeaf, outputTextDoneData_convert_content hd]
  | ResponseContentPartDone d =>
    simp only [StreamEvent.convert_to_owned] at h
    obtain ⟨d', hd, rfl⟩ := option_map_some h
    simp [StreamEvent.mapLeaf, contentPartDoneData_convert_content hd]
  | ResponseOutputItemDone d =>
    simp only [StreamEvent.convert_to_owned] at h
    obtain ⟨d', hd, rfl⟩ := option_map_some h
    simp [StreamEvent.mapLeaf, outputItemDoneData_convert_content hd]
  | ResponseFunctionCallArgumentsDelta d =>
    simp only [StreamEvent.convert_to_owned] at h
    obtain ⟨d', hd, rfl⟩ := option_map_some h
    simp [StreamEvent.mapLeaf,
      functionCallArgumentsDeltaData_convert_content hd]
  | ResponseFunctionCallArgumentsDone d =>
    simp only [StreamEvent.convert_to_owned] at h
    obtain ⟨d', hd, rfl⟩ := option_map_some h
    simp [StreamEvent.mapLeaf,
      functionCallArgumentsDoneData_convert_content hd]
  | ResponseReasoningTextDelta d =>
    simp only [StreamEvent.convert_to_owned] at h
    obtain ⟨d', hd, rfl⟩ := option_map_some h
    simp [StreamEvent.mapLeaf, reasoningTextDeltaData_convert_content hd]
  | ResponseReasoningTextDone d =>
    simp only [StreamEvent.convert_to_owned] at h
    obtain ⟨d', hd, rfl⟩ := option_map_some h
    simp [StreamEvent.mapLeaf, reasoningTextDoneData_convert_content hd]
  | ResponseReasoningSummaryPartAdded d =>
    simp only [StreamEvent.convert_to_owned] at h
    obtain ⟨d', hd, rfl⟩ := option_map_some h
    simp [StreamEvent.mapLeaf,
      reasoningSummaryPartAddedData_convert_content hd]
  | ResponseReasoningSummaryTextDelta d =>
    simp only [StreamEvent.convert_to_owned] at h
    obtain ⟨d', hd, rfl⟩ := option_map_some h
    simp [StreamEvent.mapLeaf,
      reasoningSummaryTextDeltaData_convert_content hd]
  | ResponseReasoningSummaryTextDone d =>
    simp only [StreamEvent.convert_to_owned] at h
    obtain ⟨d', hd, rfl⟩ := option_map_some h
    simp [StreamEvent.mapLeaf,
      reasoningSummaryTextDoneData_convert_content hd]
  | ResponseReasoningSummaryPartDone d =>
    simp only [StreamEvent.convert_to_owned] at h
    obtain ⟨d', hd, rfl⟩ := option_map_some h
    simp [StreamEvent.mapLeaf,
      reasoningSummaryPartDoneData_convert_content hd]

/-- Witness for C3 at a concrete event and buffer: `eW` (two borrowed
leaves into `bufW`) converts to `eW'` and the erasures agree. -/
theorem convert_to_owned_preserves_values_witness :
    StreamEvent.mapLeaf Str.content eW' =
      StreamEvent.mapLeaf CowStr.content eW :=
  convert_to_owned_preserves_values eW bufW eW' (by rfl)

/-- C9: on an event all of whose borrowed string leaves are subslices of
the backing buffer's view (which holds for every event decoded from that
buffer's payload), `convert_to_owned` is total: every `slice_ref` range
computation succeeds, so the conversion never panics. -/
theorem convert_to_owned_total_on_subslices (e : StreamEvent CowStr)
    (buf : Str) (h : ∀ c ∈ e.leaves, CowStr.okFor buf c) :
    ∃ e', e.convert_to_owned buf = some e' := by
  cases e with
  | ResponseCreated d => exact ⟨.ResponseCreated d, rfl⟩
  | ResponseInProgress d => exact ⟨.ResponseInProgress d, rfl⟩
  | ResponseCompleted d => exact ⟨.ResponseCompleted d, rfl⟩
  | ResponseOutputItemAdded d =>
    obtain ⟨d', hd⟩ := outputItemAddedData_convert_total fun l hl => h l hl
    exact ⟨.ResponseOutputItemAdded d',
      by simp [StreamEvent.convert_to_owned, hd]⟩
  | ResponseContentPartAdded d =>
    obtain ⟨d', hd⟩ := contentPartAddedData_convert_total fun l hl => h l hl
    exact ⟨.ResponseContentPartAdded d',
      by simp [StreamEvent.convert_to_owned, hd]⟩
  | ResponseOutputTextDelta d =>
    obtain ⟨d', hd⟩ := outputTextDeltaData_convert_total fun l hl => h l hl
    exact ⟨.ResponseOutputTextDelta d',
      by simp [StreamEvent.convert_to_owned, hd]⟩
  | ResponseOutputTextAnnotationAdded d =>
    obtain ⟨d', hd⟩ := annotationAddedData_convert_total fun l hl => h l hl
    exact ⟨.ResponseOutputTextAnnotationAdded d',
      by simp [StreamEvent.convert_to_owned, hd]⟩
  | ResponseOutputTextDone d =>
    obtain ⟨d', hd⟩ := outputTextDoneData_convert_total fun l hl => h l hl
    exact ⟨.ResponseOutputTextDone d',
      by simp [StreamEvent.convert_to_owned, hd]⟩
  | ResponseContentPartDone d =>
    obtain ⟨d', hd⟩ := contentPartDoneData_convert_total fun l hl => h l hl
    exact ⟨.ResponseContentPartDone d',
      by simp [StreamEvent.convert_to_owned, hd]⟩
  | ResponseOutputItemDone d =>
    obtain ⟨d', hd⟩ := outputItemDoneData_convert_total fun l hl => h l hl
    exact ⟨.ResponseOutputItemDone d',
      by simp [StreamEvent.convert_to_owned, hd]⟩
  | ResponseFunctionCallArgumentsDelta d =>
    obtain ⟨d', hd⟩ :=
      functionCallArgumentsDeltaData_convert_total fun l hl => h l hl
    exact ⟨.ResponseFunctionCallArgumentsDelta d',
      by simp [StreamEvent.convert_to_owned, hd]⟩
  | ResponseFunctionCallArgumentsDone d =>
    obtain ⟨d', hd⟩ :=
      functionCallArgumentsDoneData_convert_total fun l hl => h l hl
    exact ⟨.ResponseFunctionCallArgumentsDone d',
      by simp [StreamEvent.convert_to_owned, hd]⟩
  | ResponseReasoningTextDelta d =>
    obtain ⟨d', hd⟩ :=
      reasoningTextDeltaData_convert_total fun l hl => h l hl
    exact ⟨.ResponseReasoningTextDelta d',
      by simp [StreamEvent.convert_to_owned, hd]⟩
  | ResponseReasoningTextDone d =>
    obtain ⟨d', hd⟩ := reasoningTextDoneData_convert_total fun l hl => h l hl
    exact ⟨.ResponseReasoningTextDone d',
      by simp [StreamEvent.convert_to_owned, hd]⟩
  | ResponseReasoningSummaryPartAdded d =>
    obtain ⟨d', hd⟩ :=
      reasoningSummaryPartAddedData_convert_total fun l hl => h l hl
    exact ⟨.ResponseReasoningSummaryPartAdded d',
      by simp [StreamEvent.convert_to_owned, hd]⟩
  | ResponseReasoningSummaryTextDelta d =>
    obtain ⟨d', hd⟩ :=
      reasoningSummaryTextDeltaData_convert_total fun l hl => h l hl
    exact ⟨.ResponseReasoningSummaryTextDelta d',
      by simp [StreamEvent.convert_to_owned, hd]⟩
  | ResponseReasoningSummaryTextDone d =>
    obtain ⟨d', hd⟩ :=
      reasoningSummaryTextDoneData_convert_total fun l hl => h l hl
    exact ⟨.ResponseReasoningSummaryTextDone d',
      by simp [StreamEvent.convert_to_owned, hd]⟩
  | ResponseReasoningSummaryPartDone d =>
    obtain ⟨d', hd⟩ :=
      reasoningSummaryPartDoneData_convert_total fun l hl => h l hl
    exact ⟨.ResponseReasoningSummaryPartDone d',
      by simp [StreamEvent.convert_to_owned, hd]⟩

/-- Witness for C9: both leaves of `eW` are subslices of `bufW`, and the
conversion indeed completes. -/
theorem convert_to_owned_total_on_subslices_witness :
    ∃ e', StreamEvent.convert_to_owned eW bufW = some e' :=
  convert_to_owned_total_on_subslices eW bufW (by decide)

/-! ## Claim theorems: the discriminator dispatch and numeric widths -/

set_option maxHeartbeats 1000000 in
/-- C6: for a payload object whose `type` discriminator is a string
`tag`, decoding fails with the `unknown variant` decode error whenever
`tag` is not one of the 18 recognised values (there is no fallback
variant), and whenever decoding succeeds the selected variant is exactly
the one whose wire tag is `tag`. -/
theorem discriminator_dispatch_exact (mkAlloc : List Char → Alloc)
    (o : List (String × Json)) (tag : String)
    (htag : Json.getField o "type" = some (.str tag)) :
    (tag ∉ recognisedTags →
      decodeStreamEventObj mkAlloc o = .error (.unknownVariant tag)) ∧
    (∀ e, decodeStreamEventObj mkAlloc o = .ok e → e.tagOf = tag) := by
  have hred : decodeStreamEventObj mkAlloc o =
      decodeStreamEventTagged mkAlloc tag o := by
    unfold decodeStreamEventObj
    rw [htag]
  constructor
  · intro hnot
    simp only [recognisedTags, List.mem_cons, List.not_mem_nil, or_false,
      not_or] at hnot
    obtain ⟨h1, h2, h3, h4, h5, h6, h7, h8, h9, h10, h11, h12, h13, h14,
      h15, h16, h17, h18⟩ := hnot
    rw [hred]
    unfold decodeStreamEventTagged
    rw [if_neg h1, if_neg h2, if_neg h3, if_neg h4, if_neg h5, if_neg h6,
      if_neg h7, if_neg h8, if_neg h9, if_neg h10, if_neg h11, if_neg h12,
      if_neg h13, if_neg h14, if_neg h15, if_neg h16, if_neg h17,
      if_neg h18]
  · intro e he
    rw [hred] at he
    unfold decodeStreamEventTagged at he
    by_cases h1 : tag = "response.created"
    · rw [if_pos h1] at he
      obtain ⟨d, hd, rfl⟩ := except_map_ok he
      exact h1.symm
    rw [if_neg h1] at he
    by_cases h2 : tag = "response.in_progress"
    · rw [if_pos h2] at he
      obtain ⟨d, hd, rfl⟩ := except_map_ok he
      exact h2.symm
    rw [if_neg h2] at he
    by_cases h3 : tag = "response.output_item.added"
    · rw [if_pos h3] at he
      obtain ⟨d, hd, rfl⟩ := except_map_ok he
      exact h3.symm
    rw [if_neg h3] at he
    by_cases h4 : tag = "response.content_part.added"
    · rw [if_pos h4] at he
      obtain ⟨d, hd, rfl⟩ := except_map_ok he
      exact h4.symm
    rw [if_neg h4] at he
    by_cases h5 : tag = "response.output_text.delta"
    · rw [if_pos h5] at he
      obtain ⟨d, hd, rfl⟩ := except_map_ok he
      exact h5.symm
    rw [if_neg h5] at he
    by_cases h6 : tag = "response.output_text.annotation.added"
    · rw [if_pos h6] at he
      obtain ⟨d, hd, rfl⟩ := except_map_ok he
      exact h6.symm
    rw [if_neg h6] at he
    by_cases h7 : tag = "response.output_text.done"
    · rw [if_pos h7] at he
      obtain ⟨d, hd, rfl⟩ := except_map_ok he
      exact h7.symm
    rw [if_neg h7] at he
    by_cases h8 : tag = "response.content_part.done"
    · rw [if_pos h8] at he
      obtain ⟨d, hd, rfl⟩ := except_map_ok he
      exact h8.symm
    rw [if_neg h8] at he
    by_cases h9 : tag = "response.output_item.done"
    · rw [if_pos h9] at he
      obtain ⟨d, hd, rfl⟩ := except_map_ok he
      exact h9.symm
    rw [if_neg h9] at he
    by_cases h10 : tag = "response.function_call_arguments.delta"
    · rw [if_pos h10] at he
      obtain ⟨d, hd, rfl⟩ := except_map_ok he
      exact h10.symm
    rw [if_neg h10] at he
    by_cases h11 : tag = "response.function_call_arguments.done"
    · rw [if_pos h11] at he
      obtain ⟨d, hd, rfl⟩ := except_map_ok he
      exact h11.symm
    rw [if_neg h11] at he
    by_cases h12 : tag = "response.reasoning_text.delta"
    · rw [if_pos h12] at he
      obtain ⟨d, hd, rfl⟩ := except_map_ok he
      exact h12.symm
    rw [if_neg h12] at he
    by_cases h13 : tag = "response.reasoning_text.done"
    · rw [if_pos h13] at he
      obtain ⟨d, hd, rfl⟩ := except_map_ok he
      exact h13.symm
    rw [if_neg h13] at he
    by_cases h14 : tag = "response.reasoning_summary_part.added"
    · rw [if_pos h14] at he
      obtain ⟨d, hd, rfl⟩ := except_map_ok he
      exact h14.symm
    rw [if_neg h14] at he
    by_cases h15 : tag = "response.reasoning_summary_text.delta"
    · rw [if_pos h15] at he
      obtain ⟨d, hd, rfl⟩ := except_map_ok he
      exact h15.symm
    rw [if_neg h15] at he
    by_cases h16 : tag = "response.reasoning_summary_text.done"
    · rw [if_pos h16] at he
      obtain ⟨d, hd, rfl⟩ := except_map_ok he
      exact h16.symm
    rw [if_neg h16] at he
    by_cases h17 : tag = "response.reasoning_summary_part.done"
    · rw [if_pos h17] at he
      obtain ⟨d, hd, rfl⟩ := except_map_ok he
      exact h17.symm
    rw [if_neg h17] at he
    by_cases h18 : tag = "response.completed"
    · rw [if_pos h18] at he
      obtain ⟨d, hd, rfl⟩ := except_map_ok he
      exact h18.symm
    rw [if_neg h18] at he
    exact Except.noConfusion he

/-- Witness for C6: the unknown tag `bogus` is rejected with the unknown
variant error, and a well-formed `response.in_progress` payload decodes
to the variant whose wire tag is `response.in_progress`. -/
theorem discriminator_dispatch_exact_witness :
    decodeStreamEventObj mkW oUnknownW = .error (.unknownVariant "bogus") ∧
    StreamEvent.tagOf
        (StreamEvent.ResponseInProgress (T := CowStr) ⟨0⟩) =
      "response.in_progress" :=
  ⟨(discriminator_dispatch_exact mkW oUnknownW "bogus" (by rfl)).1
      (by decide),
    (discriminator_dispatch_exact mkW oInProgW "response.in_progress"
        (by rfl)).2
      (StreamEvent.ResponseInProgress ⟨0⟩) (by rfl)⟩

/-- C8 (amended): every integer-typed field is decoded with its fixed
unsigned width — a `u64` field (sequence numbers, token counts) accepts
exactly the integers in `[0, 2^64)` and a `u32` field (indices) exactly
the integers in `[0, 2^32)`, rejecting fractional, negative and
out-of-range numbers — and decoded records respect those bounds; the one
numeric field that is not an unsigned integer is the optional usage
`cost`, a 64-bit float. -/
theorem numeric_fields_decoded_with_fixed_widths :
    (∀ (field : String) (q : Rat),
      (∃ n, decodeU64 field (.num q) = .ok n) ↔
        (q.den = 1 ∧ 0 ≤ q.num ∧ q.num < (2 : Int) ^ 64)) ∧
    (∀ (field : String) (q : Rat),
      (∃ n, decodeU32 field (.num q) = .ok n) ↔
        (q.den = 1 ∧ 0 ≤ q.num ∧ q.num < (2 : Int) ^ 32)) ∧
    (∀ (o : List (String × Json)) (d : UsageInfo),
      decodeUsageInfo (.obj o) = .ok d →
        d.input_tokens < 2 ^ 64 ∧ d.output_tokens < 2 ^ 64 ∧
          d.total_tokens < 2 ^ 64) ∧
    (∀ (mkAlloc : List Char → Alloc) (o : List (String × Json))
        (d : OutputTextDeltaData CowStr),
      decodeOutputTextDeltaData mkAlloc o = .ok d →
        d.sequence_number < 2 ^ 64 ∧ d.output_index < 2 ^ 32 ∧
          d.content_index < 2 ^ 32) := by
  refine ⟨?_, ?_, ?_, ?_⟩
  · intro field q
    constructor
    · rintro ⟨n, hn⟩
      simp only [decodeU64] at hn
      split_ifs at hn with h1 h2
      all_goals first
      | exact Except.noConfusion hn
      | exact ⟨h1, h2⟩
    · rintro ⟨hden, hb⟩
      refine ⟨q.num.toNat, ?_⟩
      simp only [decodeU64]
      rw [if_pos hden, if_pos ⟨hb.1, hb.2⟩]
  · intro field q
    constructor
    · rintro ⟨n, hn⟩
      simp only [decodeU32] at hn
      split_ifs at hn with h1 h2
      all_goals first
      | exact Except.noConfusion hn
      | exact ⟨h1, h2⟩
    · rintro ⟨hden, hb⟩
      refine ⟨q.num.toNat, ?_⟩
      simp only [decodeU32]
      rw [if_pos hden, if_pos ⟨hb.1, hb.2⟩]
  · intro o d h
    simp only [decodeUsageInfo] at h
    obtain ⟨j1, hj1, h⟩ := except_bind_ok h
    obtain ⟨n1, hn1, h⟩ := except_bind_ok h
    obtain ⟨j2, hj2, h⟩ := except_bind_ok h
    obtain ⟨n2, hn2, h⟩ := except_bind_ok h
    obtain ⟨j3, hj3, h⟩ := except_bind_ok h
    obtain ⟨n3, hn3, h⟩ := except_bind_ok h
    obtain ⟨c, hc, h⟩ := except_bind_ok h
    obtain rfl := except_pure_ok h
    exact ⟨decodeU64_ok_lt hn1, decodeU64_ok_lt hn2, decodeU64_ok_lt hn3⟩
  · intro mkAlloc o d h
    unfold decodeOutputTextDeltaData at h
    obtain ⟨j1, hj1, h⟩ := except_bind_ok h
    obtain ⟨n1, hn1, h⟩ := except_bind_ok h
    obtain ⟨j2, hj2, h⟩ := except_bind_ok h
    obtain ⟨i2, hi2, h⟩ := except_bind_ok h
    obtain ⟨j3, hj3, h⟩ := except_bind_ok h
    obtain ⟨n3, hn3, h⟩ := except_bind_ok h
    obtain ⟨j4, hj4, h⟩ := except_bind_ok h
    obtain ⟨d4, hd4, h⟩ := except_bind_ok h
    obtain ⟨j5, hj5, h⟩ := except_bind_ok h
    obtain ⟨n5, hn5, h⟩ := except_bind_ok h
    obtain rfl := except_pure_ok h
    exact ⟨decodeU64_ok_lt hn5, decodeU32_ok_lt hn1, decodeU32_ok_lt hn3⟩

/-- Counterexample to C8 as stated: `cost` is a numeric field of
`UsageInfo`, yet the fractional value 1/2 decodes successfully (it is an
`Option<f64>`, not an unsigned integer), so not every numeric field is
decoded as an unsigned 32- or 64-bit integer with fractional values
rejected. -/
theorem cost_accepts_fractional_value :
    decodeUsageInfo usageFracJson = .ok ⟨1, 2, 3, some (1 / 2)⟩ := by
  rfl

end SlopStreamer
